import Mathlib

/-!
Verification of the GLV scalar-multiplication module of the Bandersnatch
curve (`src/curves/glv.rs`).

The module is embedded shallowly:
* base-field and scalar-field elements are `Nat` values reduced modulo the
  respective modulus, with explicit `% q` / `% r` in every operation;
* curve points are embedded twice, matching the two ways the source uses
  them: a concrete executable model of the arkworks extended twisted
  Edwards coordinates (used for evaluation at concrete points), and an
  abstract `CurveOps` record (instantiated with any additive commutative
  group) for the algebraic theorems — the source treats the point
  arithmetic as an external collaborator, so the algorithms are embedded
  once, parametrised by the point operations;
* the loop of `multi_scalar_mul` indexes into the bit vectors; the
  embedding performs this lookup fallibly (`Option`), so that in-bounds
  access is a provable statement rather than an assumption.
-/

namespace Bandersnatch

set_option maxRecDepth 2000

/-- Modelled from the spec: the base-field modulus (coordinate field of the
curve).  The value is defined by `Fq` outside `src/`; it is the BLS12-381
scalar-field modulus used by Bandersnatch. -/
def q : Nat := 52435875175126190479447740508185965837690552500527637822603658699938581184513

/-- Modelled from the spec: the group order `r` (the `MODULUS` of
`FrParameters`, defined outside `src/`).  Its value is pinned down by the
lattice matrix recorded in `src/curves/glv.rs`: the determinant identity
`n11 * n11 + n12 * n21 = r` is proved below in `coeff_det_eq_r`. -/
def r : Nat := 13108968793781547619861935127046491459309155893440570251786403306729687672801

/-- Modelled from the spec: the eigenvalue `lambda` of the endomorphism on
the scalar field.  It is not defined in `src/`; it is determined (mod `r`)
by the lattice matrix of `src/curves/glv.rs` through the sublattice
condition `n11 + lambda * n12 ≡ 0 (mod r)`, proved below in
`lattice_row1` and `lattice_row2`. -/
def lambda : Nat := 8913659658109529928382530854484400854125314752504019737736543920008458395397

/-- Constant `COEFF_N11` of `src/curves/glv.rs`. -/
def coeffN11 : Nat := 113482231691339203864511368254957623327

/-- Constant `COEFF_N12` of `src/curves/glv.rs`. -/
def coeffN12 : Nat := 10741319382058138887739339959866629956

/-- Constant `COEFF_N21` of `src/curves/glv.rs`. -/
def coeffN21 : Nat := 21482638764116277775478679919733259912

/-- Constant `COEFF_N22` of `src/curves/glv.rs`: the negative literal
`-113482231691339203864511368254957623327` merged into the scalar field by
`field_new!`, whose semantics is reduction of the signed literal modulo
`r`. -/
def coeffN22 : Nat := ((-113482231691339203864511368254957623327 : Int) % (r : Int)).toNat

/-- Scalar-field addition (canonical representatives). -/
def frAdd (a b : Nat) : Nat := (a + b) % r

/-- Scalar-field multiplication (canonical representatives). -/
def frMul (a b : Nat) : Nat := (a * b) % r

/-- Scalar-field negation (canonical representatives). -/
def frNeg (a : Nat) : Nat := (r - a % r) % r

/-- Scalar-field subtraction (canonical representatives). -/
def frSub (a b : Nat) : Nat := (a + (r - b % r)) % r

/-- Base-field addition. -/
def fqAdd (a b : Nat) : Nat := (a + b) % q

/-- Base-field multiplication. -/
def fqMul (a b : Nat) : Nat := (a * b) % q

/-- Base-field negation. -/
def fqNeg (a : Nat) : Nat := (q - a % q) % q

/-- Base-field subtraction. -/
def fqSub (a b : Nat) : Nat := (a + (q - b % q)) % q

/-- Binary modular exponentiation, structurally recursive on a fuel
argument bounding the bit length of the exponent. -/
def powModFuel (m a : Nat) : Nat → Nat → Nat
  | 0, _ => 1 % m
  | fuel + 1, e =>
    if e = 0 then 1 % m
    else
      let p := powModFuel m a fuel (e / 2)
      if e % 2 = 1 then p * p % m * a % m else p * p % m

/-- Base-field inversion via Fermat's little theorem (the external
collaborator's `inverse` for nonzero arguments and prime `q`). -/
def fqInv (a : Nat) : Nat := powModFuel q a 256 (q - 2)

/-- Affine point of the curve (`EdwardsAffine`): a coordinate pair. -/
structure EAffine where
  x : Nat
  y : Nat
deriving DecidableEq

/-- Extended twisted Edwards point (`EdwardsProjective` of arkworks):
coordinates `(x, y, t, z)`. -/
structure EProj where
  x : Nat
  y : Nat
  t : Nat
  z : Nat
deriving DecidableEq

/-- Modelled from the spec: the Edwards coefficient `a = -5` of the
Bandersnatch curve (`EdwardsParameters::COEFF_A`, outside `src/`). -/
def aCoeff : Nat := q - 5

/-- Modelled from the spec: the Edwards coefficient `d` of the
Bandersnatch curve (`EdwardsParameters::COEFF_D`, outside `src/`). -/
def dCoeff : Nat := 45022363124591815672509500913686876175488063829319466900776701791074614335719

/-- The identity element `EdwardsProjective::zero()`: `(0, 1, 0, 1)`. -/
def pZero : EProj := ⟨0, 1, 0, 1⟩

/-- Multiplication by the Edwards `a` coefficient (`mul_by_a`). -/
def mulByA (x : Nat) : Nat := fqMul aCoeff x

/-- Point doubling: the `double_in_place` formula of the arkworks extended
twisted Edwards model (external collaborator of `src/curves/glv.rs`). -/
def pDouble (p : EProj) : EProj :=
  let a := fqMul p.x p.x
  let b := fqMul p.y p.y
  let c := fqAdd (fqMul p.z p.z) (fqMul p.z p.z)
  let d := mulByA a
  let e := fqSub (fqSub (fqMul (fqAdd p.x p.y) (fqAdd p.x p.y)) a) b
  let g := fqAdd d b
  let f := fqSub g c
  let h := fqSub d b
  ⟨fqMul e f, fqMul g h, fqMul e h, fqMul f g⟩

/-- Point addition: the `add_assign` formula of the arkworks extended
twisted Edwards model (external collaborator of `src/curves/glv.rs`). -/
def pAdd (p1 p2 : EProj) : EProj :=
  let a := fqMul p1.x p2.x
  let b := fqMul p1.y p2.y
  let c := fqMul (fqMul dCoeff p1.t) p2.t
  let dd := fqMul p1.z p2.z
  let e := fqSub (fqSub (fqMul (fqAdd p1.x p1.y) (fqAdd p2.x p2.y)) a) b
  let f := fqSub dd c
  let g := fqAdd dd c
  let h := fqSub b (mulByA a)
  ⟨fqMul e f, fqMul g h, fqMul e h, fqMul f g⟩

/-- Point negation `(x, y, t, z) ↦ (-x, y, -t, z)`. -/
def pNeg (p : EProj) : EProj := ⟨fqNeg p.x, p.y, fqNeg p.t, p.z⟩

/-- Conversion `into_projective`: `(x, y) ↦ (x, y, x*y, 1)`. -/
def toProjPt (p : EAffine) : EProj := ⟨p.x, p.y, fqMul p.x p.y, 1⟩

/-- The `is_zero` test on extended coordinates: `x = 0` and `y = z`. -/
def isZeroP (p : EProj) : Bool := p.x == 0 && p.y == p.z

/-- Equality of the group elements represented by two extended points, as
implemented by the arkworks `PartialEq` (cross-multiplication). -/
def projEq (p1 p2 : EProj) : Bool :=
  if isZeroP p1 then isZeroP p2
  else if isZeroP p2 then false
  else fqMul p1.x p2.z == fqMul p2.x p1.z && fqMul p1.y p2.z == fqMul p2.y p1.z

/-- Conversion `into_affine` (divides the coordinates by `z`; the `t`
coordinate is ignored). -/
def intoAffine (p : EProj) : EAffine :=
  if isZeroP p then ⟨0, 1⟩
  else ⟨fqMul p.x (fqInv p.z), fqMul p.y (fqInv p.z)⟩

/-- Constant `COEFF_A1` of `src/curves/glv.rs`. -/
def coeffA1 : Nat := 16179988757916560824577558193084210236647645729299773892093730683504906651604

/-- Constant `COEFF_A2` of `src/curves/glv.rs`. -/
def coeffA2 : Nat := 37446463827641770816307242315180085052603635617490163568005256780843403514036

/-- Constant `COEFF_A3` of `src/curves/glv.rs`. -/
def coeffA3 : Nat := 14989411347484419663140498193005880785086916883037474254598401919095177670477

/-- Constant `COEFF_B1` of `src/curves/glv.rs`. -/
def coeffB1 : Nat := 37446463827641770816307242315180085052603635617490163568005256780843403514036

/-- Constant `COEFF_B2` of `src/curves/glv.rs`. -/
def coeffB2 : Nat := 36553259151239542273674161596529768046449890757310263666255995151154432137034

/-- Constant `COEFF_B3` of `src/curves/glv.rs`. -/
def coeffB3 : Nat := 15882616023886648205773578911656197791240661743217374156347663548784149047479

/-- Constant `COEFF_C1` of `src/curves/glv.rs`. -/
def coeffC1 : Nat := 42910309089382041158038545419309140955400939872179826051492616687477682993077

/-- Constant `COEFF_C2` of `src/curves/glv.rs`. -/
def coeffC2 : Nat := 9525566085744149321409195088876824882289612628347811771111042012460898191436

/-- The endomorphism evaluator `endomorphism` of `src/curves/glv.rs`:
computes the rational map on an affine point and normalises (the
intermediate extended point is built with `t = 1`, exactly as in the
source; `into_affine` does not read `t`). -/
def endomorphism (base : EAffine) : EAffine :=
  let x := base.x
  let y := base.y
  let z := y
  let fy := fqMul (fqMul coeffA1 (fqAdd y coeffA2)) (fqAdd y coeffA3)
  let gy := fqMul (fqMul coeffB1 (fqAdd y coeffB2)) (fqAdd y coeffB3)
  let hy := fqMul (fqAdd y coeffC1) (fqAdd y coeffC2)
  let x2 := fqMul (fqMul x fy) hy
  let y2 := fqMul gy z
  let z2 := fqMul hy z
  intoAffine ⟨x2, y2, 1, z2⟩

/-- The scalar decomposer `scalar_decomposition` of `src/curves/glv.rs`,
on canonical representatives.  The conversions of the source are made
explicit: lifting a field element to `BigUint` is the canonical
representative (the constants `COEFF_N11`, `COEFF_N12` are below `r`, so
they lift to themselves), and `Fr::from` of a `BigUint` reduces modulo
`r`. -/
def scalar_decomposition (k : Nat) : Nat × Nat :=
  let beta_1 := k * coeffN11
  let beta_2 := k * coeffN12
  let beta_1 := beta_1 / r
  let beta_2 := beta_2 / r
  let beta_1 := beta_1 % r
  let beta_2 := beta_2 % r
  let b1 := frAdd (frMul beta_1 coeffN11) (frMul beta_2 coeffN21)
  let b2 := frAdd (frMul beta_1 coeffN12) (frMul beta_2 coeffN22)
  let k1 := frSub k b1
  let k2 := frNeg b2
  (k1, k2)

/-- The 256-entry little-endian bit vector of a scalar
(`BigInteger256::to_bits_le`). -/
def toBitsLE (s : Nat) : List Bool := (List.range 256).map s.testBit

/-- The scanning loop of `get_bits`: walks the reversed bit vector,
decrementing the counter for each leading `false`. -/
def getBitsGo : List Bool → Nat → Nat
  | [], res => res
  | e :: rest, res => if e then res else getBitsGo rest (res - 1)

/-- The bit-length helper `get_bits` of `src/curves/glv.rs`. -/
def get_bits (a : List Bool) : Nat := getBitsGo a.reverse 256

/-- The point operations consumed by the multiplier: the source uses the
arkworks affine/projective types and their group operations as external
collaborators, abstracted here as a record. -/
structure CurveOps (A : Type) (Pt : Type) where
  toProj : A → Pt
  zero : Pt
  add : Pt → Pt → Pt
  double : Pt → Pt
  neg : Pt → Pt

/-- The concrete Bandersnatch instantiation of the point operations. -/
def concreteOps : CurveOps EAffine EProj := ⟨toProjPt, pZero, pAdd, pDouble, pNeg⟩

/-- The point operations of any additive commutative group (the semantics
the external collaborators implement). -/
def groupOps (G : Type) [AddCommGroup G] : CurveOps G G :=
  ⟨id, 0, fun p1 p2 => p1 + p2, fun p => p + p, fun p => -p⟩

/-- One iteration body of the `multi_scalar_mul` loop at bit position `j`:
doubling followed by the three conditional additions of the source.  The
bit lookup is fallible (`List.get?`); the source would panic on an
out-of-bounds index. -/
def msmStep {A Pt : Type} (ops : CurveOps A Pt) (b1 b2 b1b2 : Pt)
    (s1_bits s2_bits : List Bool) (j : Nat) (res : Pt) : Option Pt :=
  let res1 := ops.double res
  match s1_bits.get? j, s2_bits.get? j with
  | some bit1, some bit2 =>
    let res2 := if bit1 && !bit2 then ops.add res1 b1 else res1
    let res3 := if !bit1 && bit2 then ops.add res2 b2 else res2
    let res4 := if bit1 && bit2 then ops.add res3 b1b2 else res3
    some res4
  | _, _ => none

/-- The double-and-add loop of `multi_scalar_mul`: iteration `i` of the
source accesses bit `len - i - 1`; here the countdown index
`j = len - i - 1` drives the recursion. -/
def msmLoop {A Pt : Type} (ops : CurveOps A Pt) (b1 b2 b1b2 : Pt)
    (s1_bits s2_bits : List Bool) : Nat → Pt → Option Pt
  | 0, res => some res
  | j + 1, res =>
    match msmStep ops b1 b2 b1b2 s1_bits s2_bits j res with
    | some res2 => msmLoop ops b1 b2 b1b2 s1_bits s2_bits j res2
    | none => none

/-- The dual-scalar multiplier `multi_scalar_mul` of `src/curves/glv.rs`:
sign normalisation against `(r - 1) / 2` (`MODULUS_MINUS_ONE_DIV_TWO`),
precomputation of `b1 + b2`, bit-length truncation via `get_bits`, and
the joint double-and-add loop. -/
def multi_scalar_mul {A Pt : Type} (ops : CurveOps A Pt) (base : A) (scalar_1 : Nat)
    (endor_base : A) (scalar_2 : Nat) : Option Pt :=
  let b1 := ops.toProj base
  let s1 := scalar_1
  let b2 := ops.toProj endor_base
  let s2 := scalar_2
  let r_over_2 := (r - 1) / 2
  let bs1 := if r_over_2 < s1 then (ops.neg b1, frNeg s1) else (b1, s1)
  let bs2 := if r_over_2 < s2 then (ops.neg b2, frNeg s2) else (b2, s2)
  let b1b2 := ops.add bs1.1 bs2.1
  let s1_bits := toBitsLE bs1.2
  let s2_bits := toBitsLE bs2.2
  let s1_len := get_bits s1_bits
  let s2_len := get_bits s2_bits
  let len := max s1_len s2_len
  msmLoop ops bs1.1 bs2.1 b1b2 s1_bits s2_bits len ops.zero

/-- The driver `glv_mul` of `src/curves/glv.rs`, parametrised by the point
operations and the endomorphism evaluator it composes. -/
def glv_mul {A Pt : Type} (ops : CurveOps A Pt) (endo : A → A) (base : A)
    (scalar : Nat) : Option Pt :=
  let psi_base := endo base
  let kk := scalar_decomposition scalar
  multi_scalar_mul ops base kk.1 psi_base kk.2

/-- Modelled from the spec: one step of the reference double-and-add
(double, then add the base if bit `j` of the scalar is set). -/
def refStep {A Pt : Type} (ops : CurveOps A Pt) (k : Nat) (base : Pt) (j : Nat)
    (res : Pt) : Pt :=
  let res1 := ops.double res
  if k.testBit j then ops.add res1 base else res1

/-- Modelled from the spec: the reference double-and-add loop, from bit
`j - 1` down to bit `0`. -/
def refLoop {A Pt : Type} (ops : CurveOps A Pt) (k : Nat) (base : Pt) : Nat → Pt → Pt
  | 0, res => res
  | j + 1, res => refLoop ops k base j (refStep ops k base j res)

/-- Modelled from the spec: the reference double-and-add scalar
multiplication (`k·P`, most significant bit first, over the full 256-bit
width) against which `glv_mul` is specified; no reference implementation
ships under `src/`. -/
def scalarMulRef {A Pt : Type} (ops : CurveOps A Pt) (k : Nat) (base : Pt) : Pt :=
  refLoop ops k base 256 ops.zero

/-- Evaluation helper: the block of the reference loop covering bit
positions `b + c - 1` down to `b`. -/
def refChunk {A Pt : Type} (ops : CurveOps A Pt) (k : Nat) (base : Pt) (b : Nat) :
    Nat → Pt → Pt
  | 0, res => res
  | c + 1, res => refChunk ops k base b c (refStep ops k base (b + c) res)

/-- Splitting the reference loop into a high block followed by the rest. -/
theorem refLoop_eq_chunk {A Pt : Type} (ops : CurveOps A Pt) (k : Nat) (base : Pt)
    (b : Nat) : ∀ (c : Nat) (res : Pt),
    refLoop ops k base (b + c) res = refLoop ops k base b (refChunk ops k base b c res) := by
  intro c
  induction c with
  | zero => intro res; rfl
  | succ n ih =>
    intro res
    show refLoop ops k base (b + n) (refStep ops k base (b + n) res) =
      refLoop ops k base b (refChunk ops k base b (n + 1) res)
    rw [ih]
    rfl

/-- Evaluation helper: the block of the `multi_scalar_mul` loop covering
bit positions `b + c - 1` down to `b`. -/
def msmChunk {A Pt : Type} (ops : CurveOps A Pt) (b1 b2 b1b2 : Pt)
    (s1_bits s2_bits : List Bool) (b : Nat) : Nat → Pt → Option Pt
  | 0, res => some res
  | c + 1, res =>
    match msmStep ops b1 b2 b1b2 s1_bits s2_bits (b + c) res with
    | some res2 => msmChunk ops b1 b2 b1b2 s1_bits s2_bits b c res2
    | none => none

/-- Splitting the `multi_scalar_mul` loop into a high block followed by
the rest. -/
theorem msmLoop_eq_chunk {A Pt : Type} (ops : CurveOps A Pt) (b1 b2 b1b2 : Pt)
    (s1_bits s2_bits : List Bool) (b : Nat) : ∀ (c : Nat) (res : Pt),
    msmLoop ops b1 b2 b1b2 s1_bits s2_bits (b + c) res =
      match msmChunk ops b1 b2 b1b2 s1_bits s2_bits b c res with
      | some mid => msmLoop ops b1 b2 b1b2 s1_bits s2_bits b mid
      | none => none := by
  intro c
  induction c with
  | zero => intro res; rfl
  | succ n ih =>
    intro res
    show (match msmStep ops b1 b2 b1b2 s1_bits s2_bits (b + n) res with
      | some res2 => msmLoop ops b1 b2 b1b2 s1_bits s2_bits (b + n) res2
      | none => none) =
      match (match msmStep ops b1 b2 b1b2 s1_bits s2_bits (b + n) res with
        | some res2 => msmChunk ops b1 b2 b1b2 s1_bits s2_bits b n res2
        | none => none) with
      | some mid => msmLoop ops b1 b2 b1b2 s1_bits s2_bits b mid
      | none => none
    cases msmStep ops b1 b2 b1b2 s1_bits s2_bits (b + n) res with
    | none => rfl
    | some res2 => exact ih res2

/-- Modelled from the spec: the standard generator of the prime-order
subgroup (`GENERATOR_X`, `GENERATOR_Y` of the curve parameters, outside
`src/`). -/
def generator : EAffine :=
  ⟨18886178867200960497001835917649091219057080094937609519140440539760939937304,
   19188667384257783945677642223292697773471335439753913231509108946878080696678⟩

/-! ### Properties of the bit-vector helpers -/

/-- Entry `j` of the 256-entry little-endian bit vector is bit `j` of the
scalar. -/
theorem toBitsLE_get (s j : Nat) (hj : j < 256) :
    (toBitsLE s).get? j = some (s.testBit j) := by
  unfold toBitsLE
  rw [List.get?_map, List.get?_range hj]
  rfl

/-- The bit vector always has 256 entries. -/
theorem toBitsLE_length (s : Nat) : (toBitsLE s).length = 256 := by
  simp [toBitsLE]

/-- The scanning loop never increases its counter. -/
theorem getBitsGo_le (l : List Bool) : ∀ res, getBitsGo l res ≤ res := by
  induction l with
  | nil => intro res; exact Nat.le_refl _
  | cons e rest ih =>
    intro res
    unfold getBitsGo
    by_cases he : e
    · simp [he]
    · simp [he]
      exact Nat.le_trans (ih (res - 1)) (Nat.sub_le _ _)

/-- The result of `get_bits` is at most the full width 256. -/
theorem get_bits_le (a : List Bool) : get_bits a ≤ 256 :=
  getBitsGo_le _ 256

/-- If entry `i` is `true` and every earlier entry is `false`, the scan
stops after `i` decrements. -/
theorem getBitsGo_true_at :
    ∀ (l : List Bool) (i res : Nat), l.get? i = some true →
      (∀ j, j < i → l.get? j = some false) → getBitsGo l res = res - i := by
  intro l
  induction l with
  | nil => intro i res h _; simp at h
  | cons e rest ih =>
    intro i res h hf
    cases i with
    | zero =>
      have : e = true := by simpa using h
      simp [getBitsGo, this]
    | succ n =>
      have h0 : e = false := by
        have := hf 0 (Nat.succ_pos n)
        simpa using this
      have hrest : rest.get? n = some true := by simpa using h
      have hfrest : ∀ j, j < n → rest.get? j = some false := by
        intro j hj
        have := hf (j + 1) (by omega)
        simpa using this
      simp only [getBitsGo, h0, Bool.false_eq_true, if_false]
      rw [ih n (res - 1) hrest hfrest]
      omega

/-- If every entry is `false`, the scan decrements once per entry. -/
theorem getBitsGo_all_false :
    ∀ (l : List Bool) (res : Nat), (∀ j, j < l.length → l.get? j = some false) →
      getBitsGo l res = res - l.length := by
  intro l
  induction l with
  | nil => intro res _; simp [getBitsGo]
  | cons e rest ih =>
    intro res hf
    have h0 : e = false := by
      have := hf 0 (by simp)
      simpa using this
    have hfrest : ∀ j, j < rest.length → rest.get? j = some false := by
      intro j hj
      have := hf (j + 1) (by simp; omega)
      simpa using this
    simp only [getBitsGo, h0, Bool.false_eq_true, if_false]
    rw [ih (res - 1) hfrest]
    simp
    omega

/-- Reversed lookup: entry `j` of the reversed list is entry `255 - j` of
a 256-entry list. -/
theorem reverse_get256 (a : List Bool) (h : a.length = 256) (j : Nat) (hj : j < 256) :
    a.reverse.get? j = a.get? (255 - j) := by
  rw [List.get?_eq_getElem?, List.get?_eq_getElem?, List.getElem?_reverse (by omega)]
  congr 1
  omega

/-- The scan of the bit vector of `s` computes the bit length
(`Nat.size`) of `s`. -/
theorem getBitsGo_range_size (s : Nat) :
    ∀ (c : Nat), ∀ (res : Nat), s < 2 ^ c →
      getBitsGo ((List.range c).map s.testBit).reverse res = res - (c - Nat.size s) := by
  intro c
  induction c with
  | zero =>
    intro res hs
    interval_cases s
    simp [getBitsGo, Nat.size_zero]
  | succ n ih =>
    intro res hs
    have hsplit : ((List.range (n + 1)).map s.testBit).reverse =
        s.testBit n :: ((List.range n).map s.testBit).reverse := by
      rw [List.range_succ]
      simp
    rw [hsplit]
    by_cases hbit : s.testBit n = true
    · have hge : 2 ^ n ≤ s := by
        by_contra hlt
        push_neg at hlt
        have : s.testBit n = false := Nat.testBit_lt_two_pow hlt
        rw [this] at hbit
        exact Bool.false_ne_true hbit
      have hsize : Nat.size s = n + 1 := by
        have h1 : Nat.size s ≤ n + 1 := Nat.size_le.mpr hs
        have h2 : n < Nat.size s := Nat.lt_size.mpr hge
        omega
      simp [getBitsGo, hbit, hsize]
    · have hbit' : s.testBit n = false := by
        cases hb : s.testBit n
        · rfl
        · exact absurd hb hbit
      have hlt : s < 2 ^ n := by
        by_contra hge
        push_neg at hge
        have hdiv1 : s / 2 ^ n = 1 := by
          have hlo : 1 ≤ s / 2 ^ n := (Nat.one_le_div_iff (Nat.pos_pow_of_pos n (by norm_num))).mpr hge
          have hhi : s / 2 ^ n < 2 := by
            rw [Nat.div_lt_iff_lt_mul (Nat.pos_pow_of_pos n (by norm_num))]
            rw [pow_succ] at hs
            omega
          omega
        have htrue : s.testBit n = true := by
          rw [Nat.testBit_to_div_mod, hdiv1]
          rfl
        rw [htrue] at hbit'
        simp at hbit' 
      have hsize : Nat.size s ≤ n := Nat.size_le.mpr hlt
      simp only [getBitsGo, hbit', Bool.false_eq_true, if_false]
      rw [ih (res - 1) hlt]
      omega

/-- On bit vectors of scalars below the width, `get_bits` computes the
bit length. -/
theorem get_bits_toBitsLE (s : Nat) (h : s < 2 ^ 256) :
    get_bits (toBitsLE s) = Nat.size s := by
  unfold get_bits toBitsLE
  rw [getBitsGo_range_size s 256 256 h]
  have : Nat.size s ≤ 256 := Nat.size_le.mpr h
  omega

/-- Claim C7: applied to a 256-element little-endian bit sequence,
`get_bits` returns the index one past the highest set bit — `0` for the
all-zero sequence, `256` when the most significant entry is set, and
`i + 1` when entry `i` is the highest set entry. -/
theorem get_bits_spec (a : List Bool) (h : a.length = 256) :
    ((∀ j, j < 256 → a.get? j = some false) → get_bits a = 0) ∧
    (a.get? 255 = some true → get_bits a = 256) ∧
    (∀ i, i < 256 → a.get? i = some true →
      (∀ j, j < 256 → i < j → a.get? j = some false) → get_bits a = i + 1) := by
  have hlenrev : a.reverse.length = 256 := by simp [h]
  refine ⟨?_, ?_, ?_⟩
  · intro hall
    unfold get_bits
    rw [getBitsGo_all_false a.reverse]
    · omega
    · intro j hj
      rw [hlenrev] at hj
      rw [reverse_get256 a h j hj]
      exact hall (255 - j) (by omega)
  · intro htop
    unfold get_bits
    have hget : a.reverse.get? 0 = some true := by
      rw [reverse_get256 a h 0 (by norm_num)]
      simpa using htop
    rw [getBitsGo_true_at a.reverse 0 256 hget (by intro j hj; omega)]
  · intro i hi htrue hfalse
    unfold get_bits
    have hget : a.reverse.get? (255 - i) = some true := by
      rw [reverse_get256 a h (255 - i) (by omega)]
      have heq : 255 - (255 - i) = i := by omega
      rw [heq]
      exact htrue
    have hf : ∀ j, j < 255 - i → a.reverse.get? j = some false := by
      intro j hj
      rw [reverse_get256 a h j (by omega)]
      exact hfalse (255 - j) (by omega) (by omega)
    rw [getBitsGo_true_at a.reverse (255 - i) 256 hget hf]
    omega

/-- Witness for C7: the bit vector of `5` (highest set bit at index 2)
has `get_bits` equal to `3`; the hypotheses of `get_bits_spec` are
discharged at this concrete input. -/
theorem get_bits_spec_witness : get_bits (toBitsLE 5) = 3 := by
  have h := get_bits_spec (toBitsLE 5) (toBitsLE_length 5)
  refine h.2.2 2 (by norm_num) ?_ ?_
  · rw [toBitsLE_get 5 2 (by norm_num)]
    rfl
  · intro j hj hij
    rw [toBitsLE_get 5 j hj]
    have h5 : (5 : Nat) < 2 ^ j := by
      have h8 : (2 : Nat) ^ 3 ≤ 2 ^ j := Nat.pow_le_pow_right (by norm_num) hij
      omega
    rw [Nat.testBit_lt_two_pow h5]

/-! ### The lattice constants -/

/-- The determinant identity pinning the group order to the lattice
matrix of the source: `n11 * n11 + n12 * n21 = r`. -/
theorem coeff_det_eq_r : coeffN11 * coeffN11 + coeffN12 * coeffN21 = r := by decide

/-- First lattice row: `n11 + lambda * n12` is an exact multiple of `r`
(so `(n11, n12)` lies in the sublattice of pairs with
`x + lambda * y ≡ 0 (mod r)`). -/
theorem lattice_row1 :
    coeffN11 + lambda * coeffN12 = r * 7303737369192576046425006878625960659 := by decide

/-- Second lattice row: `lambda * n11 - n21` is an exact multiple of `r`
(equivalently `n21 + lambda * n22 ≡ 0 (mod r)` with `n22 = -n11`). -/
theorem lattice_row2 :
    lambda * coeffN11 = coeffN21 + r * 77164116144602499312640695832143016307 := by decide

/-- The canonical value of the negative-literal constant. -/
theorem coeffN22_eq : coeffN22 = r - coeffN11 := by decide

/-- Claim C6: the negative literal `COEFF_N22` reduces to `r - v` in the
scalar field (where `v = 113482231691339203864511368254957623327`), it is
not the 256-bit unsigned wrap-around `2^256 - v`, and with this value the
second lattice row satisfies the sublattice congruence
`n21 + lambda * n22 ≡ 0 (mod r)`. -/
theorem coeffN22_field_reduced :
    coeffN22 = r - 113482231691339203864511368254957623327 ∧
    coeffN22 ≠ 2 ^ 256 - 113482231691339203864511368254957623327 ∧
    (coeffN21 + lambda * coeffN22) % r = 0 := by
  refine ⟨by decide, by decide, by decide⟩

/-! ### Exact value of the scalar decomposition -/

/-- Positivity of the group order. -/
theorem rpos : 0 < r := by decide

/-- The Babai quotients are below `r` for reduced scalars. -/
theorem quotient_lt (k c : Nat) (hk : k < r) (hc : 0 < c) (hcr : c < r) : k * c / r < r := by
  have h1 : k * c < c * r := by
    calc k * c = c * k := by ring
    _ < c * r := mul_lt_mul_of_pos_left hk hc
  have h2 : k * c / r < c := by
    rw [Nat.div_lt_iff_lt_mul rpos]
    exact h1
  omega

/-- The first Babai remainder identity: with `A, B` the two quotients and
the remainders written via `%`, the integer
`rem1 * n11 + rem2 * n21` equals `r * (k - (A * n11 + B * n21))`. -/
theorem rho_identity1 (k : Nat) :
    ((k * coeffN11 % r : Nat) : Int) * coeffN11 + ((k * coeffN12 % r : Nat) : Int) * coeffN21 =
      r * (k - (((k * coeffN11 / r : Nat) : Int) * coeffN11 +
                ((k * coeffN12 / r : Nat) : Int) * coeffN21)) := by
  have hdm1 : (r : Int) * ((k * coeffN11 / r : Nat) : Int) + ((k * coeffN11 % r : Nat) : Int) =
      (k : Int) * coeffN11 := by
    exact_mod_cast Nat.div_add_mod (k * coeffN11) r
  have hdm2 : (r : Int) * ((k * coeffN12 / r : Nat) : Int) + ((k * coeffN12 % r : Nat) : Int) =
      (k : Int) * coeffN12 := by
    exact_mod_cast Nat.div_add_mod (k * coeffN12) r
  have hdet : (coeffN11 : Int) * coeffN11 + (coeffN12 : Int) * coeffN21 = r := by
    exact_mod_cast coeff_det_eq_r
  linear_combination (coeffN11 : Int) * hdm1 + (coeffN21 : Int) * hdm2 + (k : Int) * hdet

/-- The second Babai remainder identity:
`rem1 * n12 - rem2 * n11 = r * (B * n11 - A * n12)`. -/
theorem rho_identity2 (k : Nat) :
    ((k * coeffN11 % r : Nat) : Int) * coeffN12 - ((k * coeffN12 % r : Nat) : Int) * coeffN11 =
      r * (((k * coeffN12 / r : Nat) : Int) * coeffN11 -
           ((k * coeffN11 / r : Nat) : Int) * coeffN12) := by
  have hdm1 : (r : Int) * ((k * coeffN11 / r : Nat) : Int) + ((k * coeffN11 % r : Nat) : Int) =
      (k : Int) * coeffN11 := by
    exact_mod_cast Nat.div_add_mod (k * coeffN11) r
  have hdm2 : (r : Int) * ((k * coeffN12 / r : Nat) : Int) + ((k * coeffN12 % r : Nat) : Int) =
      (k : Int) * coeffN12 := by
    exact_mod_cast Nat.div_add_mod (k * coeffN12) r
  linear_combination (coeffN12 : Int) * hdm1 - (coeffN11 : Int) * hdm2

/-- The exact integer values of the decomposition of a reduced scalar:
`k1 = k - (A*n11 + B*n21)` exactly (no reduction occurs), and `k2` equals
the signed short value `B*n11 - A*n12`, possibly shifted by one `r` when
that value is negative.  `A`, `B` are the Babai quotients. -/
theorem scalar_decomposition_exact (k : Nat) (hk : k < r) :
    ((scalar_decomposition k).1 : Int) =
      k - (((k * coeffN11 / r : Nat) : Int) * coeffN11 +
           ((k * coeffN12 / r : Nat) : Int) * coeffN21) ∧
    (((scalar_decomposition k).2 : Int) =
        ((k * coeffN12 / r : Nat) : Int) * coeffN11 -
        ((k * coeffN11 / r : Nat) : Int) * coeffN12 ∨
     ((scalar_decomposition k).2 : Int) =
        ((k * coeffN12 / r : Nat) : Int) * coeffN11 -
        ((k * coeffN11 / r : Nat) : Int) * coeffN12 + r) := by
  have hAlt : k * coeffN11 / r < r := quotient_lt k coeffN11 hk (by decide) (by decide)
  have hBlt : k * coeffN12 / r < r := quotient_lt k coeffN12 hk (by decide) (by decide)
  have hshape : scalar_decomposition k =
      ((k + (r - (k * coeffN11 / r * coeffN11 % r + k * coeffN12 / r * coeffN21 % r) % r)) % r,
       (r - (k * coeffN11 / r * coeffN12 % r + k * coeffN12 / r * coeffN22 % r) % r) % r) := by
    simp only [scalar_decomposition, frAdd, frMul, frSub, frNeg,
      Nat.mod_eq_of_lt hAlt, Nat.mod_eq_of_lt hBlt, Nat.mod_mod]
  obtain ⟨A, hA⟩ : ∃ A, k * coeffN11 / r = A := ⟨_, rfl⟩
  obtain ⟨B, hB⟩ : ∃ B, k * coeffN12 / r = B := ⟨_, rfl⟩
  obtain ⟨u1, hu1⟩ : ∃ u, k * coeffN11 % r = u := ⟨_, rfl⟩
  obtain ⟨u2, hu2⟩ : ∃ u, k * coeffN12 % r = u := ⟨_, rfl⟩
  have h1 : (scalar_decomposition k).1 =
      (k + (r - (A * coeffN11 % r + B * coeffN21 % r) % r)) % r := by
    rw [hshape, hA, hB]
  have h2 : (scalar_decomposition k).2 =
      (r - (A * coeffN12 % r + B * coeffN22 % r) % r) % r := by
    rw [hshape, hA, hB]
  have key1 := rho_identity1 k
  have key2 := rho_identity2 k
  rw [hA, hB, hu1, hu2] at key1 key2
  have hu1r : u1 < r := by rw [← hu1]; exact Nat.mod_lt _ rpos
  have hu2r : u2 < r := by rw [← hu2]; exact Nat.mod_lt _ rpos
  have hr : (0 : Int) < r := by exact_mod_cast rpos
  have hrne : (r : Int) ≠ 0 := ne_of_gt hr
  have hn11pos : (0 : Int) < coeffN11 := by exact_mod_cast (by decide : 0 < coeffN11)
  have hn12pos : (0 : Int) < coeffN12 := by exact_mod_cast (by decide : 0 < coeffN12)
  have hn21pos : (0 : Int) < coeffN21 := by exact_mod_cast (by decide : 0 < coeffN21)
  rw [hA] at hAlt
  rw [hB] at hBlt
  rw [hA, hB]
  constructor
  · -- first component
    have hb1lt : (A * coeffN11 % r + B * coeffN21 % r) % r < r := Nat.mod_lt _ rpos
    have hb1cong : (A * coeffN11 % r + B * coeffN21 % r) % r ≡
        A * coeffN11 + B * coeffN21 [MOD r] :=
      (Nat.mod_modEq _ r).trans ((Nat.mod_modEq (A * coeffN11) r).add (Nat.mod_modEq (B * coeffN21) r))
    rw [h1]
    have hcast : (((k + (r - (A * coeffN11 % r + B * coeffN21 % r) % r)) % r : Nat) : Int) =
        ((k : Int) + ((r : Int) - ((A * coeffN11 % r + B * coeffN21 % r) % r : Nat))) % r := by
      push_cast [Nat.cast_sub hb1lt.le]
      ring_nf
    rw [hcast]
    have hdvd1 : (r : Int) ∣ ((A * coeffN11 + B * coeffN21 : Nat) : Int) -
        ((A * coeffN11 % r + B * coeffN21 % r) % r : Nat) := hb1cong.dvd
    have hSnn : (0 : Int) ≤ (u1 : Int) * coeffN11 + (u2 : Int) * coeffN21 :=
      add_nonneg (mul_nonneg (Int.natCast_nonneg _) (Int.natCast_nonneg _))
        (mul_nonneg (Int.natCast_nonneg _) (Int.natCast_nonneg _))
    have hSlt : (u1 : Int) * coeffN11 + (u2 : Int) * coeffN21 < (r : Int) * r := by
      have e1 : (u1 : Int) * coeffN11 ≤ (r : Int) * coeffN11 :=
        mul_le_mul_of_nonneg_right (by exact_mod_cast hu1r.le) (by positivity)
      have e2 : (u2 : Int) * coeffN21 < (r : Int) * coeffN21 :=
        mul_lt_mul_of_pos_right (by exact_mod_cast hu2r) hn21pos
      have e3 : (r : Int) * coeffN11 + (r : Int) * coeffN21 < (r : Int) * r := by
        have hsum : (coeffN11 : Int) + coeffN21 < r := by
          exact_mod_cast (by decide : coeffN11 + coeffN21 < r)
        calc (r : Int) * coeffN11 + (r : Int) * coeffN21 = r * (coeffN11 + coeffN21) := by ring
        _ < r * r := mul_lt_mul_of_pos_left hsum hr
      linarith
    have hD1 : 0 ≤ (k : Int) - ((A : Int) * coeffN11 + (B : Int) * coeffN21) := by
      by_contra hcon
      push_neg at hcon
      have hneg : (r : Int) * ((k : Int) - ((A : Int) * coeffN11 + (B : Int) * coeffN21)) < 0 :=
        mul_neg_of_pos_of_neg hr hcon
      rw [← key1] at hneg
      linarith
    have hD2 : (k : Int) - ((A : Int) * coeffN11 + (B : Int) * coeffN21) < r := by
      by_contra hcon
      push_neg at hcon
      have hge : (r : Int) * r ≤ (r : Int) * ((k : Int) - ((A : Int) * coeffN11 + (B : Int) * coeffN21)) :=
        mul_le_mul_of_nonneg_left hcon (le_of_lt hr)
      rw [← key1] at hge
      linarith
    have hx : ((k : Int) + ((r : Int) - ((A * coeffN11 % r + B * coeffN21 % r) % r : Nat))) % r -
        ((k : Int) - ((A : Int) * coeffN11 + (B : Int) * coeffN21)) =
        (((A * coeffN11 + B * coeffN21 : Nat) : Int) -
          ((A * coeffN11 % r + B * coeffN21 % r) % r : Nat)) +
        (r : Int) * (1 - ((k : Int) + ((r : Int) - ((A * coeffN11 % r + B * coeffN21 % r) % r : Nat))) / r) := by
      rw [Int.emod_def]
      push_cast
      ring
    obtain ⟨c, hc⟩ : (r : Int) ∣
        ((k : Int) + ((r : Int) - ((A * coeffN11 % r + B * coeffN21 % r) % r : Nat))) % r -
        ((k : Int) - ((A : Int) * coeffN11 + (B : Int) * coeffN21)) := by
      rw [hx]
      exact dvd_add hdvd1 (dvd_mul_right _ _)
    have hm0 : 0 ≤ ((k : Int) + ((r : Int) - ((A * coeffN11 % r + B * coeffN21 % r) % r : Nat))) % r :=
      Int.emod_nonneg _ hrne
    have hm1 : ((k : Int) + ((r : Int) - ((A * coeffN11 % r + B * coeffN21 % r) % r : Nat))) % r < r :=
      Int.emod_lt_of_pos _ hr
    have hcub1 : (r : Int) * c < r * 1 := by linarith [hc]
    have hcub2 : (r : Int) * (-1) < r * c := by linarith [hc]
    have hc1 : c < 1 := lt_of_mul_lt_mul_left hcub1 (le_of_lt hr)
    have hc2 : -1 < c := lt_of_mul_lt_mul_left hcub2 (le_of_lt hr)
    have hc0 : c = 0 := by omega
    rw [hc0, mul_zero] at hc
    linarith [hc]
  · -- second component
    have hb2lt : (A * coeffN12 % r + B * coeffN22 % r) % r < r := Nat.mod_lt _ rpos
    have hb2cong : (A * coeffN12 % r + B * coeffN22 % r) % r ≡
        A * coeffN12 + B * coeffN22 [MOD r] :=
      (Nat.mod_modEq _ r).trans ((Nat.mod_modEq (A * coeffN12) r).add (Nat.mod_modEq (B * coeffN22) r))
    rw [h2]
    have hcast : (((r - (A * coeffN12 % r + B * coeffN22 % r) % r) % r : Nat) : Int) =
        ((r : Int) - ((A * coeffN12 % r + B * coeffN22 % r) % r : Nat)) % r := by
      push_cast [Nat.cast_sub hb2lt.le]
      ring_nf
    rw [hcast]
    have hdvd2 : (r : Int) ∣ ((A * coeffN12 + B * coeffN22 : Nat) : Int) -
        ((A * coeffN12 % r + B * coeffN22 % r) % r : Nat) := hb2cong.dvd
    have n22cast : ((coeffN22 : Nat) : Int) = (r : Int) - coeffN11 := by
      rw [coeffN22_eq]
      push_cast [Nat.cast_sub (by decide : coeffN11 ≤ r)]
      ring
    have hUlt : (B : Int) * coeffN11 - (A : Int) * coeffN12 < coeffN12 := by
      have e1 : (u1 : Int) * coeffN12 < (r : Int) * coeffN12 :=
        mul_lt_mul_of_pos_right (by exact_mod_cast hu1r) hn12pos
      have e2 : (0 : Int) ≤ (u2 : Int) * coeffN11 :=
        mul_nonneg (Int.natCast_nonneg _) (Int.natCast_nonneg _)
      have : (r : Int) * ((B : Int) * coeffN11 - (A : Int) * coeffN12) < r * coeffN12 := by
        rw [← key2]
        linarith
      exact lt_of_mul_lt_mul_left this (le_of_lt hr)
    have hUgt : -(coeffN11 : Int) < (B : Int) * coeffN11 - (A : Int) * coeffN12 := by
      have e1 : (u2 : Int) * coeffN11 < (r : Int) * coeffN11 :=
        mul_lt_mul_of_pos_right (by exact_mod_cast hu2r) hn11pos
      have e2 : (0 : Int) ≤ (u1 : Int) * coeffN12 :=
        mul_nonneg (Int.natCast_nonneg _) (Int.natCast_nonneg _)
      have : (r : Int) * -(coeffN11 : Int) < r * ((B : Int) * coeffN11 - (A : Int) * coeffN12) := by
        rw [← key2]
        linarith
      exact lt_of_mul_lt_mul_left this (le_of_lt hr)
    have hbU : (r : Int) ∣ (((A * coeffN12 % r + B * coeffN22 % r) % r : Nat) : Int) +
        ((B : Int) * coeffN11 - (A : Int) * coeffN12) := by
      have hrw : (((A * coeffN12 % r + B * coeffN22 % r) % r : Nat) : Int) +
          ((B : Int) * coeffN11 - (A : Int) * coeffN12) =
          (r : Int) * B - (((A * coeffN12 + B * coeffN22 : Nat) : Int) -
            ((A * coeffN12 % r + B * coeffN22 % r) % r : Nat)) := by
        push_cast [n22cast]
        ring
      rw [hrw]
      exact dvd_sub (dvd_mul_right _ _) hdvd2
    have hy : ((r : Int) - ((A * coeffN12 % r + B * coeffN22 % r) % r : Nat)) % r -
        ((B : Int) * coeffN11 - (A : Int) * coeffN12) =
        -((((A * coeffN12 % r + B * coeffN22 % r) % r : Nat) : Int) +
          ((B : Int) * coeffN11 - (A : Int) * coeffN12)) +
        (r : Int) * (1 - ((r : Int) - ((A * coeffN12 % r + B * coeffN22 % r) % r : Nat)) / r) := by
      rw [Int.emod_def]
      ring
    obtain ⟨c, hc⟩ : (r : Int) ∣
        ((r : Int) - ((A * coeffN12 % r + B * coeffN22 % r) % r : Nat)) % r -
        ((B : Int) * coeffN11 - (A : Int) * coeffN12) := by
      rw [hy]
      exact dvd_add (dvd_neg.mpr hbU) (dvd_mul_right _ _)
    have hm0 : 0 ≤ ((r : Int) - ((A * coeffN12 % r + B * coeffN22 % r) % r : Nat)) % r :=
      Int.emod_nonneg _ hrne
    have hm1 : ((r : Int) - ((A * coeffN12 % r + B * coeffN22 % r) % r : Nat)) % r < r :=
      Int.emod_lt_of_pos _ hr
    have hn11r : (coeffN11 : Int) < r := by exact_mod_cast (by decide : coeffN11 < r)
    have hn12r : (coeffN12 : Int) < r := by exact_mod_cast (by decide : coeffN12 < r)
    have hcub1 : (r : Int) * c < r * 2 := by linarith [hc]
    have hcub2 : (r : Int) * (-1) < r * c := by linarith [hc]
    have hc1 : c < 2 := lt_of_mul_lt_mul_left hcub1 (le_of_lt hr)
    have hc2 : -1 < c := lt_of_mul_lt_mul_left hcub2 (le_of_lt hr)
    have hc01 : c = 0 ∨ c = 1 := by omega
    cases hc01 with
    | inl h0 =>
      left
      rw [h0, mul_zero] at hc
      linarith [hc]
    | inr hone =>
      right
      rw [hone, mul_one] at hc
      linarith [hc]

/-- Both components of the decomposition are reduced modulo `r`. -/
theorem scalar_decomposition_lt_r (k : Nat) :
    (scalar_decomposition k).1 < r ∧ (scalar_decomposition k).2 < r := by
  simp only [scalar_decomposition, frSub, frNeg, frAdd, frMul]
  exact ⟨Nat.mod_lt _ rpos, Nat.mod_lt _ rpos⟩

/-- The decomposition congruence, as a reusable lemma. -/
theorem scalar_decomposition_congr_aux (k : Nat) (hk : k < r) :
    (scalar_decomposition k).1 + lambda * (scalar_decomposition k).2 ≡ k [MOD r] := by
  obtain ⟨h1, h2⟩ := scalar_decomposition_exact k hk
  rw [Nat.modEq_iff_dvd]
  push_cast
  rw [h1]
  have hv : (coeffN11 : Int) + lambda * coeffN12 =
      r * 7303737369192576046425006878625960659 := by
    exact_mod_cast lattice_row1
  have hw : (lambda : Int) * coeffN11 =
      coeffN21 + r * 77164116144602499312640695832143016307 := by
    exact_mod_cast lattice_row2
  cases h2 with
  | inl h =>
    rw [h]
    refine ⟨((k * coeffN11 / r : Nat) : Int) * 7303737369192576046425006878625960659 -
      ((k * coeffN12 / r : Nat) : Int) * 77164116144602499312640695832143016307, ?_⟩
    linear_combination ((k * coeffN11 / r : Nat) : Int) * hv -
      ((k * coeffN12 / r : Nat) : Int) * hw
  | inr h =>
    rw [h]
    refine ⟨((k * coeffN11 / r : Nat) : Int) * 7303737369192576046425006878625960659 -
      ((k * coeffN12 / r : Nat) : Int) * 77164116144602499312640695832143016307 -
      lambda, ?_⟩
    linear_combination ((k * coeffN11 / r : Nat) : Int) * hv -
      ((k * coeffN12 / r : Nat) : Int) * hw

/-- Claim C2: the decomposition satisfies `k1 + lambda * k2 ≡ k (mod r)`,
where `lambda` is the eigenvalue of the endomorphism on the scalar field,
determined by the lattice matrix. -/
theorem scalar_decomposition_congruence (k : Nat) (hk : k < r) :
    (scalar_decomposition k).1 + lambda * (scalar_decomposition k).2 ≡ k [MOD r] :=
  scalar_decomposition_congr_aux k hk

/-- Witness for C2 at the concrete scalar `12345`. -/
theorem scalar_decomposition_congruence_witness :
    12345 < r ∧
    (scalar_decomposition 12345).1 + lambda * (scalar_decomposition 12345).2 ≡ 12345 [MOD r] :=
  ⟨by decide, scalar_decomposition_congruence 12345 (by decide)⟩

/-- Claim C4 (amended): `k1` always fits in 127 bits, and `k2` is short
in the signed sense — either `k2` itself or its negation modulo `r`
(that is, `r - k2`) fits in 127 bits. -/
theorem scalar_decomposition_short (k : Nat) (hk : k < r) :
    (scalar_decomposition k).1 < 2 ^ 127 ∧
    ((scalar_decomposition k).2 < 2 ^ 127 ∨ r - (scalar_decomposition k).2 < 2 ^ 127) := by
  obtain ⟨h1, h2⟩ := scalar_decomposition_exact k hk
  have key1 := rho_identity1 k
  have key2 := rho_identity2 k
  have hr : (0 : Int) < r := by exact_mod_cast rpos
  have hu1r : ((k * coeffN11 % r : Nat) : Int) < r := by
    exact_mod_cast Nat.mod_lt _ rpos
  have hu2r : ((k * coeffN12 % r : Nat) : Int) < r := by
    exact_mod_cast Nat.mod_lt _ rpos
  have hu1nn : (0 : Int) ≤ ((k * coeffN11 % r : Nat) : Int) := Int.natCast_nonneg _
  have hu2nn : (0 : Int) ≤ ((k * coeffN12 % r : Nat) : Int) := Int.natCast_nonneg _
  have hn11nn : (0 : Int) ≤ (coeffN11 : Int) := Int.natCast_nonneg _
  have hn12nn : (0 : Int) ≤ (coeffN12 : Int) := Int.natCast_nonneg _
  have hn21nn : (0 : Int) ≤ (coeffN21 : Int) := Int.natCast_nonneg _
  constructor
  · -- k1 bound
    rw [← h1] at key1
    have hS : ((k * coeffN11 % r : Nat) : Int) * coeffN11 +
        ((k * coeffN12 % r : Nat) : Int) * coeffN21 < r * 2 ^ 127 := by
      have e1 : ((k * coeffN11 % r : Nat) : Int) * coeffN11 ≤ r * coeffN11 :=
        mul_le_mul_of_nonneg_right hu1r.le hn11nn
      have e2 : ((k * coeffN12 % r : Nat) : Int) * coeffN21 ≤ r * coeffN21 :=
        mul_le_mul_of_nonneg_right hu2r.le hn21nn
      have e3 : (r : Int) * coeffN11 + r * coeffN21 < r * 2 ^ 127 := by
        have hsum : (coeffN11 : Int) + coeffN21 < 2 ^ 127 := by
          exact_mod_cast (by decide : coeffN11 + coeffN21 < 2 ^ 127)
        calc (r : Int) * coeffN11 + r * coeffN21 = r * (coeffN11 + coeffN21) := by ring
        _ < r * 2 ^ 127 := mul_lt_mul_of_pos_left hsum hr
      linarith
    rw [key1] at hS
    have : ((scalar_decomposition k).1 : Int) < 2 ^ 127 :=
      lt_of_mul_lt_mul_left hS hr.le
    exact_mod_cast this
  · cases h2 with
    | inl h =>
      left
      have hS2 : ((k * coeffN11 % r : Nat) : Int) * coeffN12 -
          ((k * coeffN12 % r : Nat) : Int) * coeffN11 < r * 2 ^ 127 := by
        have e1 : ((k * coeffN11 % r : Nat) : Int) * coeffN12 ≤ r * coeffN12 :=
          mul_le_mul_of_nonneg_right hu1r.le hn12nn
        have e2 : (0 : Int) ≤ ((k * coeffN12 % r : Nat) : Int) * coeffN11 :=
          mul_nonneg hu2nn hn11nn
        have e3 : (r : Int) * coeffN12 < r * 2 ^ 127 := by
          have hn12small : (coeffN12 : Int) < 2 ^ 127 := by
            exact_mod_cast (by decide : coeffN12 < 2 ^ 127)
          exact mul_lt_mul_of_pos_left hn12small hr
        linarith
      rw [key2, ← h] at hS2
      have : ((scalar_decomposition k).2 : Int) < 2 ^ 127 :=
        lt_of_mul_lt_mul_left hS2 hr.le
      exact_mod_cast this
    | inr h =>
      right
      have hk2r : (scalar_decomposition k).2 < r := (scalar_decomposition_lt_r k).2
      have hcast : ((r - (scalar_decomposition k).2 : Nat) : Int) =
          (r : Int) - (scalar_decomposition k).2 := by
        push_cast [Nat.cast_sub hk2r.le]
        ring
      have hS2 : ((k * coeffN12 % r : Nat) : Int) * coeffN11 -
          ((k * coeffN11 % r : Nat) : Int) * coeffN12 < r * 2 ^ 127 := by
        have e1 : ((k * coeffN12 % r : Nat) : Int) * coeffN11 ≤ r * coeffN11 :=
          mul_le_mul_of_nonneg_right hu2r.le hn11nn
        have e2 : (0 : Int) ≤ ((k * coeffN11 % r : Nat) : Int) * coeffN12 :=
          mul_nonneg hu1nn hn12nn
        have e3 : (r : Int) * coeffN11 < r * 2 ^ 127 := by
          have hn11small : (coeffN11 : Int) < 2 ^ 127 := by
            exact_mod_cast (by decide : coeffN11 < 2 ^ 127)
          exact mul_lt_mul_of_pos_left hn11small hr
        linarith
      have hneg : (r : Int) * ((r : Int) - (scalar_decomposition k).2) =
          ((k * coeffN12 % r : Nat) : Int) * coeffN11 -
          ((k * coeffN11 % r : Nat) : Int) * coeffN12 := by
        rw [h]
        linear_combination key2
      rw [← hneg] at hS2
      have : ((r : Int) - (scalar_decomposition k).2) < 2 ^ 127 :=
        lt_of_mul_lt_mul_left hS2 hr.le
      rw [← hcast] at this
      exact_mod_cast this

/-- Counterexample to C4 as stated: at this concrete scalar the field
representative of `k2` has bit length 253, the full bit length of `r`,
far above `⌈253 / 2⌉ = 127` plus any small margin. -/
theorem scalar_decomposition_bitlength_cex :
    Nat.size (scalar_decomposition 115515606261927299903142999927150814555).2 = 253 ∧
    Nat.size r = 253 := by
  constructor
  · have hlo : 2 ^ 252 ≤ (scalar_decomposition 115515606261927299903142999927150814555).2 := by
      decide
    have hhi : (scalar_decomposition 115515606261927299903142999927150814555).2 < 2 ^ 253 := by
      decide
    have l1 := Nat.lt_size.mpr hlo
    have l2 := Nat.size_le.mpr hhi
    omega
  · have hlo : 2 ^ 252 ≤ r := by decide
    have hhi : r < 2 ^ 253 := by decide
    have l1 := Nat.lt_size.mpr hlo
    have l2 := Nat.size_le.mpr hhi
    omega

/-- Witness for the amended C4 at the counterexample scalar. -/
theorem scalar_decomposition_short_witness :
    115515606261927299903142999927150814555 < r ∧
    ((scalar_decomposition 115515606261927299903142999927150814555).1 < 2 ^ 127 ∧
     ((scalar_decomposition 115515606261927299903142999927150814555).2 < 2 ^ 127 ∨
      r - (scalar_decomposition 115515606261927299903142999927150814555).2 < 2 ^ 127)) :=
  ⟨by decide, scalar_decomposition_short 115515606261927299903142999927150814555 (by decide)⟩

/-! ### The multiplier over an abstract commutative group -/

/-- Splitting a remainder at the next bit: set bit. -/
theorem mod_pow_succ_true {s j : Nat} (h : s.testBit j = true) :
    s % 2 ^ (j + 1) = s % 2 ^ j + 2 ^ j := by
  have h2 : s / 2 ^ j % 2 = 1 := by
    rw [Nat.testBit_to_div_mod] at h
    exact of_decide_eq_true h
  rw [pow_succ, Nat.mod_mul, h2, mul_one]

/-- Splitting a remainder at the next bit: clear bit. -/
theorem mod_pow_succ_false {s j : Nat} (h : s.testBit j = false) :
    s % 2 ^ (j + 1) = s % 2 ^ j := by
  have h2 : s / 2 ^ j % 2 = 0 := by
    rw [Nat.testBit_to_div_mod] at h
    have := of_decide_eq_false h
    omega
  rw [pow_succ, Nat.mod_mul, h2, mul_zero, add_zero]

/-- One unfolding of the loop when both bit lookups succeed. -/
theorem msmLoop_succ {A Pt : Type} (ops : CurveOps A Pt) (b1 b2 b1b2 : Pt)
    (s1_bits s2_bits : List Bool) (j : Nat) (res : Pt) (t1 t2 : Bool)
    (h1 : s1_bits.get? j = some t1) (h2 : s2_bits.get? j = some t2) :
    msmLoop ops b1 b2 b1b2 s1_bits s2_bits (j + 1) res =
      msmLoop ops b1 b2 b1b2 s1_bits s2_bits j
        (if t1 && t2 then ops.add (ops.double res) b1b2
         else if t1 then ops.add (ops.double res) b1
         else if t2 then ops.add (ops.double res) b2
         else ops.double res) := by
  show (match msmStep ops b1 b2 b1b2 s1_bits s2_bits j res with
        | some res2 => msmLoop ops b1 b2 b1b2 s1_bits s2_bits j res2
        | none => none) = _
  unfold msmStep
  rw [h1, h2]
  cases t1 <;> cases t2 <;> rfl

section GroupModel

variable {G : Type} [AddCommGroup G]

/-- Projection lemmas for the group instantiation of the point
operations. -/
theorem groupOps_toProj (p : G) : (groupOps G).toProj p = p := rfl

theorem groupOps_zero : (groupOps G).zero = (0 : G) := rfl

theorem groupOps_add (p1 p2 : G) : (groupOps G).add p1 p2 = p1 + p2 := rfl

theorem groupOps_double (p : G) : (groupOps G).double p = p + p := rfl

theorem groupOps_neg (p : G) : (groupOps G).neg p = -p := rfl

/-- The value computed by the loop over a commutative group: processing
bits `j - 1` down to `0` of both scalars accumulates
`2^j • res + (s1 mod 2^j) • b1 + (s2 mod 2^j) • b2`. -/
theorem groupOps_msmLoop (b1 b2 : G) (s1 s2 : Nat) :
    ∀ (j : Nat), j ≤ 256 → ∀ (res : G),
      msmLoop (groupOps G) b1 b2 (b1 + b2) (toBitsLE s1) (toBitsLE s2) j res =
        some ((2 ^ j) • res + ((s1 % 2 ^ j) • b1 + (s2 % 2 ^ j) • b2)) := by
  intro j
  induction j with
  | zero =>
    intro _ res
    show some res = _
    rw [pow_zero, one_nsmul, Nat.mod_one, Nat.mod_one, zero_nsmul, zero_nsmul]
    rw [add_zero, add_zero]
  | succ n ih =>
    intro hn res
    have hn' : n < 256 := by omega
    have hpow : ∀ x : G, (2 : Nat) ^ (n + 1) • x = 2 ^ n • x + 2 ^ n • x := by
      intro x
      rw [pow_succ, mul_two, add_nsmul]
    rw [msmLoop_succ (groupOps G) b1 b2 (b1 + b2) (toBitsLE s1) (toBitsLE s2) n res
      (s1.testBit n) (s2.testBit n) (toBitsLE_get s1 n hn') (toBitsLE_get s2 n hn')]
    cases h1 : s1.testBit n <;> cases h2 : s2.testBit n
    · -- 00
      simp only [Bool.false_and, if_false, Bool.false_eq_true, ite_false]
      rw [ih (by omega), mod_pow_succ_false h1, mod_pow_succ_false h2]
      rw [groupOps_double]
      congr 1
      rw [smul_add, hpow]
    · -- 01
      simp only [Bool.false_and, if_false, Bool.false_eq_true, ite_false, ite_true]
      rw [ih (by omega), mod_pow_succ_false h1, mod_pow_succ_true h2]
      rw [groupOps_add, groupOps_double]
      congr 1
      rw [smul_add, smul_add, hpow, add_nsmul]
      abel
    · -- 10
      simp only [Bool.true_and, Bool.and_false, if_false, Bool.false_eq_true, ite_false, ite_true]
      rw [ih (by omega), mod_pow_succ_true h1, mod_pow_succ_false h2]
      rw [groupOps_add, groupOps_double]
      congr 1
      rw [smul_add, smul_add, hpow, add_nsmul]
      abel
    · -- 11
      simp only [Bool.and_self, ite_true]
      rw [ih (by omega), mod_pow_succ_true h1, mod_pow_succ_true h2]
      rw [groupOps_add, groupOps_double]
      congr 1
      rw [smul_add, smul_add, smul_add, hpow, add_nsmul, add_nsmul]
      abel

/-- The group order is below the bit width. -/
theorem r_lt_two_pow : r < 2 ^ 256 := by decide

/-- Field negation stays reduced. -/
theorem frNeg_lt (s : Nat) : frNeg s < r := Nat.mod_lt _ rpos

/-- The loop run to the computed effective length evaluates the full
scalars (the high bits being zero). -/
theorem groupOps_msmLoop_full (b1 b2 : G) (u1 u2 : Nat)
    (hu1 : u1 < 2 ^ 256) (hu2 : u2 < 2 ^ 256) :
    msmLoop (groupOps G) b1 b2 (b1 + b2) (toBitsLE u1) (toBitsLE u2)
      (max (get_bits (toBitsLE u1)) (get_bits (toBitsLE u2))) ((groupOps G).zero) =
    some (u1 • b1 + u2 • b2) := by
  have hj : max (get_bits (toBitsLE u1)) (get_bits (toBitsLE u2)) ≤ 256 :=
    max_le (get_bits_le _) (get_bits_le _)
  rw [groupOps_zero, groupOps_msmLoop b1 b2 u1 u2 _ hj 0]
  have hs1 : u1 % 2 ^ (max (get_bits (toBitsLE u1)) (get_bits (toBitsLE u2))) = u1 := by
    apply Nat.mod_eq_of_lt
    calc u1 < 2 ^ Nat.size u1 := Nat.lt_size_self u1
    _ ≤ 2 ^ max (get_bits (toBitsLE u1)) (get_bits (toBitsLE u2)) := by
      apply Nat.pow_le_pow_right (by norm_num)
      rw [← get_bits_toBitsLE u1 hu1]
      exact le_max_left _ _
  have hs2 : u2 % 2 ^ (max (get_bits (toBitsLE u1)) (get_bits (toBitsLE u2))) = u2 := by
    apply Nat.mod_eq_of_lt
    calc u2 < 2 ^ Nat.size u2 := Nat.lt_size_self u2
    _ ≤ 2 ^ max (get_bits (toBitsLE u1)) (get_bits (toBitsLE u2)) := by
      apply Nat.pow_le_pow_right (by norm_num)
      rw [← get_bits_toBitsLE u2 hu2]
      exact le_max_right _ _
  rw [hs1, hs2, smul_zero, zero_add]

/-- `multi_scalar_mul` over a commutative group, before undoing the sign
normalisation: the result is the literal combination of the normalized
scalar/point pairs. -/
theorem multi_scalar_mul_group_norm (P Q : G) (s1 s2 : Nat) (h1 : s1 < r) (h2 : s2 < r) :
    multi_scalar_mul (groupOps G) P s1 Q s2 =
      some ((if (r - 1) / 2 < s1 then frNeg s1 else s1) •
              (if (r - 1) / 2 < s1 then -P else P) +
            (if (r - 1) / 2 < s2 then frNeg s2 else s2) •
              (if (r - 1) / 2 < s2 then -Q else Q)) := by
  have hlt : ∀ s : Nat, s < r → (if (r - 1) / 2 < s then frNeg s else s) < 2 ^ 256 := by
    intro s hs
    by_cases hc : (r - 1) / 2 < s
    · rw [if_pos hc]
      exact lt_trans (frNeg_lt s) r_lt_two_pow
    · rw [if_neg hc]
      exact lt_trans hs r_lt_two_pow
  by_cases hc1 : (r - 1) / 2 < s1 <;> by_cases hc2 : (r - 1) / 2 < s2 <;>
    simp only [multi_scalar_mul, hc1, hc2, if_true, if_false, ite_true, ite_false,
      groupOps_toProj, groupOps_add, groupOps_neg] <;>
    [exact groupOps_msmLoop_full (-P) (-Q) (frNeg s1) (frNeg s2)
       (lt_trans (frNeg_lt s1) r_lt_two_pow) (lt_trans (frNeg_lt s2) r_lt_two_pow);
     exact groupOps_msmLoop_full (-P) Q (frNeg s1) s2
       (lt_trans (frNeg_lt s1) r_lt_two_pow) (lt_trans h2 r_lt_two_pow);
     exact groupOps_msmLoop_full P (-Q) s1 (frNeg s2)
       (lt_trans h1 r_lt_two_pow) (lt_trans (frNeg_lt s2) r_lt_two_pow);
     exact groupOps_msmLoop_full P Q s1 s2
       (lt_trans h1 r_lt_two_pow) (lt_trans h2 r_lt_two_pow)]

/-- Undoing the sign normalisation: for `r`-torsion points the
normalized pair computes the original multiple. -/
theorem norm_smul_eq (s : Nat) (b : G) (hs : s < r) (hb : r • b = 0) :
    (if (r - 1) / 2 < s then frNeg s else s) • (if (r - 1) / 2 < s then -b else b) = s • b := by
  by_cases hc : (r - 1) / 2 < s
  · rw [if_pos hc, if_pos hc]
    have hs0 : 0 < s := by omega
    have hfr : frNeg s = r - s := by
      unfold frNeg
      rw [Nat.mod_eq_of_lt hs]
      apply Nat.mod_eq_of_lt
      have := rpos
      omega
    rw [hfr, neg_nsmul, sub_nsmul b hs.le, hb]
    abel
  · rw [if_neg hc, if_neg hc]

/-- The dual-scalar multiplier computes `s1 • P + s2 • Q` on `r`-torsion
points of any commutative group. -/
theorem multi_scalar_mul_group (P Q : G) (s1 s2 : Nat) (h1 : s1 < r) (h2 : s2 < r)
    (hP : r • P = 0) (hQ : r • Q = 0) :
    multi_scalar_mul (groupOps G) P s1 Q s2 = some (s1 • P + s2 • Q) := by
  rw [multi_scalar_mul_group_norm P Q s1 s2 h1 h2,
    norm_smul_eq s1 P h1 hP, norm_smul_eq s2 Q h2 hQ]

/-- The reference double-and-add loop over a commutative group. -/
theorem groupOps_refLoop (base : G) (k : Nat) :
    ∀ (c : Nat) (res : G),
      refLoop (groupOps G) k base c res = (2 ^ c) • res + (k % 2 ^ c) • base := by
  intro c
  induction c with
  | zero =>
    intro res
    show res = _
    rw [pow_zero, one_nsmul, Nat.mod_one, zero_nsmul, add_zero]
  | succ n ih =>
    intro res
    show refLoop (groupOps G) k base n (refStep (groupOps G) k base n res) = _
    rw [ih]
    unfold refStep
    have hpow : ∀ x : G, (2 : Nat) ^ (n + 1) • x = 2 ^ n • x + 2 ^ n • x := by
      intro x
      rw [pow_succ, mul_two, add_nsmul]
    cases hb : k.testBit n
    · simp only [Bool.false_eq_true, ite_false]
      rw [groupOps_double, mod_pow_succ_false hb, smul_add, hpow]
    · simp only [ite_true]
      rw [groupOps_add, groupOps_double, mod_pow_succ_true hb, smul_add, smul_add,
        hpow, add_nsmul]
      abel

/-- The reference multiplication computes the `k`-fold multiple. -/
theorem scalarMulRef_group (base : G) (k : Nat) (hk : k < 2 ^ 256) :
    scalarMulRef (groupOps G) k base = k • base := by
  show refLoop (groupOps G) k base 256 (groupOps G).zero = k • base
  rw [groupOps_zero, groupOps_refLoop base k 256 0, smul_zero, zero_add,
    Nat.mod_eq_of_lt hk]

/-- Multiples of torsion points only depend on the exponent modulo `r`. -/
theorem nsmul_congr (a b : Nat) (x : G) (hx : r • x = 0) (h : a ≡ b [MOD r]) :
    a • x = b • x := by
  have hmod : ∀ c : Nat, c • x = (c % r) • x := by
    intro c
    conv_lhs => rw [← Nat.div_add_mod c r]
    rw [add_nsmul, mul_nsmul, hx, smul_zero, zero_add]
  have h' : a % r = b % r := h
  rw [hmod a, hmod b, h']

end GroupModel

/-- Claim C3 (amended): for points `P`, `Q` of the `r`-torsion (the
prime-order subgroup together with the identity) and reduced scalars,
`multi_scalar_mul` returns `k1 • P + k2 • Q`; the point arithmetic is
modelled as an arbitrary additive commutative group. -/
theorem multi_scalar_mul_correct {G : Type} [AddCommGroup G] (P Q : G) (k1 k2 : Nat)
    (h1 : k1 < r) (h2 : k2 < r) (hP : r • P = 0) (hQ : r • Q = 0) :
    multi_scalar_mul (groupOps G) P k1 Q k2 = some (k1 • P + k2 • Q) :=
  multi_scalar_mul_group P Q k1 k2 h1 h2 hP hQ

/-- Witness for the amended C3 in `ZMod r` with `P = 1`, `Q = 2`,
`k1 = 3`, `k2 = 5`. -/
theorem multi_scalar_mul_correct_witness :
    (3 < r ∧ 5 < r ∧ r • (1 : ZMod r) = 0 ∧ r • (2 : ZMod r) = 0) ∧
    multi_scalar_mul (groupOps (ZMod r)) (1 : ZMod r) 3 (2 : ZMod r) 5 =
      some (3 • (1 : ZMod r) + 5 • (2 : ZMod r)) := by
  have h1 : (3 : Nat) < r := by decide
  have h2 : (5 : Nat) < r := by decide
  have hP : r • (1 : ZMod r) = 0 := by
    rw [nsmul_eq_mul, mul_one, ZMod.natCast_self]
  have hQ : r • (2 : ZMod r) = 0 := by
    rw [nsmul_eq_mul, ZMod.natCast_self, zero_mul]
  exact ⟨⟨h1, h2, hP, hQ⟩, multi_scalar_mul_correct 1 2 3 5 h1 h2 hP hQ⟩

/-- Claim C5: unit and zero scalars — `multi_scalar_mul (P, 1, Q, 0) = P`,
`multi_scalar_mul (P, 0, Q, 1) = Q`, `multi_scalar_mul (P, 0, Q, 0)` is
the identity, and in the both-zero case the effective loop length
(`get_bits` of the zero scalar) is `0`. -/
theorem multi_scalar_mul_unit_scalars {G : Type} [AddCommGroup G] (P Q : G) :
    multi_scalar_mul (groupOps G) P 1 Q 0 = some P ∧
    multi_scalar_mul (groupOps G) P 0 Q 1 = some Q ∧
    multi_scalar_mul (groupOps G) P 0 Q 0 = some 0 ∧
    get_bits (toBitsLE 0) = 0 := by
  have e1 := multi_scalar_mul_group_norm P Q 1 0 (by decide) (by decide)
  have e2 := multi_scalar_mul_group_norm P Q 0 1 (by decide) (by decide)
  have e3 := multi_scalar_mul_group_norm P Q 0 0 (by decide) (by decide)
  have c1 : ¬((r - 1) / 2 < 1) := by decide
  have c0 : ¬((r - 1) / 2 < 0) := by decide
  simp only [if_neg c1, if_neg c0] at e1 e2 e3
  refine ⟨?_, ?_, ?_, by decide⟩
  · rw [e1, one_nsmul, zero_nsmul, add_zero]
  · rw [e2, one_nsmul, zero_nsmul, zero_add]
  · rw [e3, zero_nsmul, zero_nsmul, add_zero]

/-- Claim C10: the effective length never exceeds the length of the bit
vectors, and the loop of `multi_scalar_mul` never reaches the error
branch of the fallible bit lookup: the result is always `some`. -/
theorem multi_scalar_mul_in_bounds {A Pt : Type} (ops : CurveOps A Pt) (base : A)
    (s1 : Nat) (endor : A) (s2 : Nat) :
    (∀ s : Nat, get_bits (toBitsLE s) ≤ (toBitsLE s).length) ∧
    (multi_scalar_mul ops base s1 endor s2).isSome = true := by
  constructor
  · intro s
    rw [toBitsLE_length]
    exact get_bits_le _
  · have hrec : ∀ (b1 b2 b12 : Pt) (x y : Nat) (j : Nat), j ≤ 256 → ∀ res,
        (msmLoop ops b1 b2 b12 (toBitsLE x) (toBitsLE y) j res).isSome = true := by
      intro b1 b2 b12 x y j
      induction j with
      | zero => intro _ res; rfl
      | succ n ih =>
        intro hn res
        rw [msmLoop_succ ops b1 b2 b12 (toBitsLE x) (toBitsLE y) n res
          (x.testBit n) (y.testBit n) (toBitsLE_get x n (by omega)) (toBitsLE_get y n (by omega))]
        exact ih (by omega) _
    exact hrec _ _ _ _ _ _ (max_le (get_bits_le _) (get_bits_le _)) _

/-- Claim C1: the driver composition.  For a point `P` of the prime-order
subgroup — modelled as an element of a commutative group annihilated by
`r` on which the evaluator satisfies its contract `endo P = lambda • P` —
`glv_mul` computes the same group element as the reference double-and-add
multiplication by `k`. -/
theorem glv_mul_correct {G : Type} [AddCommGroup G] (P : G) (endo : G → G) (k : Nat)
    (hk : k < r) (hP : r • P = 0) (hendo : endo P = lambda • P) :
    glv_mul (groupOps G) endo P k = some (scalarMulRef (groupOps G) k P) := by
  obtain ⟨hk1, hk2⟩ := scalar_decomposition_lt_r k
  have hQ : r • endo P = 0 := by
    rw [hendo, ← mul_nsmul, mul_comm, mul_nsmul, hP, smul_zero]
  show multi_scalar_mul (groupOps G) P (scalar_decomposition k).1 (endo P)
      (scalar_decomposition k).2 = _
  rw [multi_scalar_mul_group P (endo P) (scalar_decomposition k).1
      (scalar_decomposition k).2 hk1 hk2 hP hQ,
    scalarMulRef_group P k (lt_trans hk r_lt_two_pow)]
  congr 1
  rw [hendo, ← mul_nsmul, ← add_nsmul]
  exact nsmul_congr _ _ P hP (scalar_decomposition_congr_aux k hk)

/-- Witness for C1 in `ZMod r` with `P = 1`, the evaluator
`x ↦ lambda • x`, and `k = 7`. -/
theorem glv_mul_correct_witness :
    (7 < r ∧ r • (1 : ZMod r) = 0 ∧
      (fun x : ZMod r => lambda • x) 1 = lambda • (1 : ZMod r)) ∧
    glv_mul (groupOps (ZMod r)) (fun x : ZMod r => lambda • x) 1 7 =
      some (scalarMulRef (groupOps (ZMod r)) 7 1) := by
  have h1 : (7 : Nat) < r := by decide
  have hP : r • (1 : ZMod r) = 0 := by
    rw [nsmul_eq_mul, mul_one, ZMod.natCast_self]
  exact ⟨⟨h1, hP, rfl⟩, glv_mul_correct 1 (fun x => lambda • x) 7 h1 hP rfl⟩

/-! ### Concrete evaluations on the Bandersnatch curve -/

set_option maxRecDepth 4000 in
/-- Evaluation of the endomorphism at the generator. -/
theorem endo_generator_eval : endomorphism generator = ⟨9410140894439863935332762565785171069688954753118397683297156406757263156480, 42897121562489438146646031041430560066848200730688375538592044941290600261670⟩ := by decide

set_option maxRecDepth 4000 in
/-- Evaluation of the endomorphism at the image of the generator. -/
theorem endo_phi_eval : endomorphism ⟨9410140894439863935332762565785171069688954753118397683297156406757263156480, 42897121562489438146646031041430560066848200730688375538592044941290600261670⟩ = ⟨30606131913931600284455326802318389740532229441344741013820691932913979942101, 19075870567762384361343718229920461045746972450262741916171739040424605531019⟩ := by decide

set_option maxRecDepth 4000 in
/-- Chunked evaluation of the reference multiplication of the generator by lambda^2 mod r. -/
theorem ref_lambda_sq_eval :
    scalarMulRef concreteOps ((lambda * lambda) % r) (toProjPt generator) = ⟨45682125156106510261181050786702538274717762246907362065637266253639399686058, 13700523454429789994004211477593195106994383431963058903071255261306103923473, 2918524730370617565828397270899958073917144774168079839004802639411413759186, 10724976606057171595044215657720860214946351511610937065890034963815402894280⟩ := by
  show refLoop concreteOps ((lambda * lambda) % r) (toProjPt generator) 256 pZero = ⟨45682125156106510261181050786702538274717762246907362065637266253639399686058, 13700523454429789994004211477593195106994383431963058903071255261306103923473, 2918524730370617565828397270899958073917144774168079839004802639411413759186, 10724976606057171595044215657720860214946351511610937065890034963815402894280⟩
  rw [show (256 : Nat) = 192 + 64 from rfl, refLoop_eq_chunk]
  rw [show refChunk concreteOps ((lambda * lambda) % r) (toProjPt generator) 192 64 pZero =
    ⟨4394412322626904082088342183418452933111542354243262070254592294049631708885, 34329945410771929400978062443701548372821840591694942058315003934554804025068, 3194925446722663356839610408306950891205223339803232712537134451799577153696, 13705230610515632823720049261930971504342745294676604115220123801242041579781⟩ from by decide]
  rw [show (192 : Nat) = 128 + 64 from rfl, refLoop_eq_chunk]
  rw [show refChunk concreteOps ((lambda * lambda) % r) (toProjPt generator) 128 64 ⟨4394412322626904082088342183418452933111542354243262070254592294049631708885, 34329945410771929400978062443701548372821840591694942058315003934554804025068, 3194925446722663356839610408306950891205223339803232712537134451799577153696, 13705230610515632823720049261930971504342745294676604115220123801242041579781⟩ =
    ⟨29164864670362839089885652440038262647203728912053252225832978653412182382986, 40432434895877163732706515869157705275538514447195577261704822996578405522358, 51732851616989483381557837198083713830376725512002978632083158866882765068248, 18034584975939849228498480411136729810534839108685787616569044555536144866932⟩ from by decide]
  rw [show (128 : Nat) = 64 + 64 from rfl, refLoop_eq_chunk]
  rw [show refChunk concreteOps ((lambda * lambda) % r) (toProjPt generator) 64 64 ⟨29164864670362839089885652440038262647203728912053252225832978653412182382986, 40432434895877163732706515869157705275538514447195577261704822996578405522358, 51732851616989483381557837198083713830376725512002978632083158866882765068248, 18034584975939849228498480411136729810534839108685787616569044555536144866932⟩ =
    ⟨36545881941822335003260314948795013749687422902060859082759209325854391085687, 49949901099709035382771092722976509392201640238223406459640095681880638782653, 49936442514813870339974202908037024588694268565560813277630849041793413521731, 5332373779584925056485046723771997112528272999185775123218608541434153131054⟩ from by decide]
  rw [show (64 : Nat) = 0 + 64 from rfl, refLoop_eq_chunk]
  rw [show refChunk concreteOps ((lambda * lambda) % r) (toProjPt generator) 0 64 ⟨36545881941822335003260314948795013749687422902060859082759209325854391085687, 49949901099709035382771092722976509392201640238223406459640095681880638782653, 49936442514813870339974202908037024588694268565560813277630849041793413521731, 5332373779584925056485046723771997112528272999185775123218608541434153131054⟩ =
    ⟨45682125156106510261181050786702538274717762246907362065637266253639399686058, 13700523454429789994004211477593195106994383431963058903071255261306103923473, 2918524730370617565828397270899958073917144774168079839004802639411413759186, 10724976606057171595044215657720860214946351511610937065890034963815402894280⟩ from by decide]
  rfl

set_option maxRecDepth 4000 in
/-- Chunked evaluation of the reference multiplication of the generator by lambda. -/
theorem ref_lambda_eval :
    scalarMulRef concreteOps lambda (toProjPt generator) = ⟨15390923468510553833730335717925139289181000681839660162880969940557737707236, 37874506818988407776471355633780486338901763041581390609250049859706503715609, 43527420801712069666791124313117905505337246906519629585278215027969489786292, 4611169036850518746639051072141511875188752747687241697353436993062806984566⟩ := by
  show refLoop concreteOps lambda (toProjPt generator) 256 pZero = ⟨15390923468510553833730335717925139289181000681839660162880969940557737707236, 37874506818988407776471355633780486338901763041581390609250049859706503715609, 43527420801712069666791124313117905505337246906519629585278215027969489786292, 4611169036850518746639051072141511875188752747687241697353436993062806984566⟩
  rw [show (256 : Nat) = 192 + 64 from rfl, refLoop_eq_chunk]
  rw [show refChunk concreteOps lambda (toProjPt generator) 192 64 pZero =
    ⟨30428885861102495817125945315632553525800453612945500859684324467489851456710, 13151400085280751462513403685429296513736153404738168557582323886143172484425, 19774255957169425398554411110398434968303568163030049452695669329032309990232, 6731914713122080911722644201401470909381628504754167688880507953008343052573⟩ from by decide]
  rw [show (192 : Nat) = 128 + 64 from rfl, refLoop_eq_chunk]
  rw [show refChunk concreteOps lambda (toProjPt generator) 128 64 ⟨30428885861102495817125945315632553525800453612945500859684324467489851456710, 13151400085280751462513403685429296513736153404738168557582323886143172484425, 19774255957169425398554411110398434968303568163030049452695669329032309990232, 6731914713122080911722644201401470909381628504754167688880507953008343052573⟩ =
    ⟨32470960042421932209452534504939565735092597748393621222701008699915444779205, 49997416404836087028778220734655496365887078117763632208841624144677093166554, 47849158292475214808203060303513428635371545535101503716976430655922384884784, 44037503203387357899080528315307781476425794948731028423492227607770005733327⟩ from by decide]
  rw [show (128 : Nat) = 64 + 64 from rfl, refLoop_eq_chunk]
  rw [show refChunk concreteOps lambda (toProjPt generator) 64 64 ⟨32470960042421932209452534504939565735092597748393621222701008699915444779205, 49997416404836087028778220734655496365887078117763632208841624144677093166554, 47849158292475214808203060303513428635371545535101503716976430655922384884784, 44037503203387357899080528315307781476425794948731028423492227607770005733327⟩ =
    ⟨49351480225285913917128850431325694594264915131290869019581605052635168124279, 44962987588038377306789278163481750932102057679637492491070085675250181715626, 3253921838600880843549356690716325165281593882254338575995244085844431402517, 2594279389845653546432993453450690386288338743095416329377039297058461507119⟩ from by decide]
  rw [show (64 : Nat) = 0 + 64 from rfl, refLoop_eq_chunk]
  rw [show refChunk concreteOps lambda (toProjPt generator) 0 64 ⟨49351480225285913917128850431325694594264915131290869019581605052635168124279, 44962987588038377306789278163481750932102057679637492491070085675250181715626, 3253921838600880843549356690716325165281593882254338575995244085844431402517, 2594279389845653546432993453450690386288338743095416329377039297058461507119⟩ =
    ⟨15390923468510553833730335717925139289181000681839660162880969940557737707236, 37874506818988407776471355633780486338901763041581390609250049859706503715609, 43527420801712069666791124313117905505337246906519629585278215027969489786292, 4611169036850518746639051072141511875188752747687241697353436993062806984566⟩ from by decide]
  rfl

set_option maxRecDepth 4000 in
/-- Claim C8: applying the endomorphism twice to the generator yields
the same group element as the reference scalar multiplication of the
generator by `lambda^2 mod r` (concretely, `lambda^2 ≡ r - 2 (mod r)`). -/
theorem endomorphism_square :
    projEq (toProjPt (endomorphism (endomorphism generator)))
      (scalarMulRef concreteOps ((lambda * lambda) % r) (toProjPt generator)) = true := by
  rw [endo_generator_eval, endo_phi_eval, ref_lambda_sq_eval]
  decide

set_option maxRecDepth 4000 in
/-- Validation of the modelled constants: the endomorphism at the
generator agrees with the reference multiplication by `lambda`, tying the
spec-modelled eigenvalue, generator and curve constants to the
endomorphism constants of the source. -/
theorem endomorphism_generator_eigen :
    projEq (toProjPt (endomorphism generator))
      (scalarMulRef concreteOps lambda (toProjPt generator)) = true := by
  rw [endo_generator_eval, ref_lambda_eval]
  decide

set_option maxRecDepth 4000 in
/-- Chunked evaluation of the driver at the generator and scalar `r - 1`. -/
theorem glv_mul_generator_eval :
    glv_mul concreteOps endomorphism generator (r - 1) = some ⟨43787669331577521080163635143128025851952686563146543562402926704421995424003, 5063387970719823134181849420195191921782676952852589761836731127480282379235, 2300296884961537292198231551130290560653873329173976419267900062228692874787, 19501132586482485336492313325094084739605747549524923368610533786287816129010⟩ := by
  show multi_scalar_mul concreteOps generator (scalar_decomposition (r - 1)).1
    (endomorphism generator) (scalar_decomposition (r - 1)).2 = some ⟨43787669331577521080163635143128025851952686563146543562402926704421995424003, 5063387970719823134181849420195191921782676952852589761836731127480282379235, 2300296884961537292198231551130290560653873329173976419267900062228692874787, 19501132586482485336492313325094084739605747549524923368610533786287816129010⟩
  rw [show scalar_decomposition (r - 1) = (134964870455455481639990048174690883238, 13108968793781547619861935127046491459206414981131289186809631278434596679430) from by decide]
  rw [endo_generator_eval]
  show msmLoop concreteOps (toProjPt generator) (pNeg (toProjPt ⟨9410140894439863935332762565785171069688954753118397683297156406757263156480, 42897121562489438146646031041430560066848200730688375538592044941290600261670⟩)) (pAdd (toProjPt generator) (pNeg (toProjPt ⟨9410140894439863935332762565785171069688954753118397683297156406757263156480, 42897121562489438146646031041430560066848200730688375538592044941290600261670⟩))) (toBitsLE 134964870455455481639990048174690883238) (toBitsLE 102740912309281064976772028295090993371) 127 pZero = some ⟨43787669331577521080163635143128025851952686563146543562402926704421995424003, 5063387970719823134181849420195191921782676952852589761836731127480282379235, 2300296884961537292198231551130290560653873329173976419267900062228692874787, 19501132586482485336492313325094084739605747549524923368610533786287816129010⟩
  rw [show (127 : Nat) = 95 + 32 from rfl, msmLoop_eq_chunk]
  rw [show msmChunk concreteOps (toProjPt generator) (pNeg (toProjPt ⟨9410140894439863935332762565785171069688954753118397683297156406757263156480, 42897121562489438146646031041430560066848200730688375538592044941290600261670⟩)) (pAdd (toProjPt generator) (pNeg (toProjPt ⟨9410140894439863935332762565785171069688954753118397683297156406757263156480, 42897121562489438146646031041430560066848200730688375538592044941290600261670⟩))) (toBitsLE 134964870455455481639990048174690883238) (toBitsLE 102740912309281064976772028295090993371) 95 32 pZero =
    some ⟨31304420093645026863982943670955663103003937221219086040841547382501613981092, 29844467444982657195218116901278952912405549143711377398832920007443098572511, 45376376818783875552741459288025603795041953910872669267239092245449993213291, 19121723552347685499383279665551514903469741544980483419441940392957716053775⟩ from by decide]
  show msmLoop concreteOps (toProjPt generator) (pNeg (toProjPt ⟨9410140894439863935332762565785171069688954753118397683297156406757263156480, 42897121562489438146646031041430560066848200730688375538592044941290600261670⟩)) (pAdd (toProjPt generator) (pNeg (toProjPt ⟨9410140894439863935332762565785171069688954753118397683297156406757263156480, 42897121562489438146646031041430560066848200730688375538592044941290600261670⟩))) (toBitsLE 134964870455455481639990048174690883238) (toBitsLE 102740912309281064976772028295090993371) 95 ⟨31304420093645026863982943670955663103003937221219086040841547382501613981092, 29844467444982657195218116901278952912405549143711377398832920007443098572511, 45376376818783875552741459288025603795041953910872669267239092245449993213291, 19121723552347685499383279665551514903469741544980483419441940392957716053775⟩ = some ⟨43787669331577521080163635143128025851952686563146543562402926704421995424003, 5063387970719823134181849420195191921782676952852589761836731127480282379235, 2300296884961537292198231551130290560653873329173976419267900062228692874787, 19501132586482485336492313325094084739605747549524923368610533786287816129010⟩
  rw [show (95 : Nat) = 63 + 32 from rfl, msmLoop_eq_chunk]
  rw [show msmChunk concreteOps (toProjPt generator) (pNeg (toProjPt ⟨9410140894439863935332762565785171069688954753118397683297156406757263156480, 42897121562489438146646031041430560066848200730688375538592044941290600261670⟩)) (pAdd (toProjPt generator) (pNeg (toProjPt ⟨9410140894439863935332762565785171069688954753118397683297156406757263156480, 42897121562489438146646031041430560066848200730688375538592044941290600261670⟩))) (toBitsLE 134964870455455481639990048174690883238) (toBitsLE 102740912309281064976772028295090993371) 63 32 ⟨31304420093645026863982943670955663103003937221219086040841547382501613981092, 29844467444982657195218116901278952912405549143711377398832920007443098572511, 45376376818783875552741459288025603795041953910872669267239092245449993213291, 19121723552347685499383279665551514903469741544980483419441940392957716053775⟩ =
    some ⟨46361860616114098970652755835504219075066405529200425231089346731799971756084, 14168194038783108058681141058523075529713877228630345859079053081664809237998, 52187463492440308027294311986624282406514412156596619298432958669936698334666, 25770823630990772289252949546466241250409669334657503583257732451005307544964⟩ from by decide]
  show msmLoop concreteOps (toProjPt generator) (pNeg (toProjPt ⟨9410140894439863935332762565785171069688954753118397683297156406757263156480, 42897121562489438146646031041430560066848200730688375538592044941290600261670⟩)) (pAdd (toProjPt generator) (pNeg (toProjPt ⟨9410140894439863935332762565785171069688954753118397683297156406757263156480, 42897121562489438146646031041430560066848200730688375538592044941290600261670⟩))) (toBitsLE 134964870455455481639990048174690883238) (toBitsLE 102740912309281064976772028295090993371) 63 ⟨46361860616114098970652755835504219075066405529200425231089346731799971756084, 14168194038783108058681141058523075529713877228630345859079053081664809237998, 52187463492440308027294311986624282406514412156596619298432958669936698334666, 25770823630990772289252949546466241250409669334657503583257732451005307544964⟩ = some ⟨43787669331577521080163635143128025851952686563146543562402926704421995424003, 5063387970719823134181849420195191921782676952852589761836731127480282379235, 2300296884961537292198231551130290560653873329173976419267900062228692874787, 19501132586482485336492313325094084739605747549524923368610533786287816129010⟩
  rw [show (63 : Nat) = 31 + 32 from rfl, msmLoop_eq_chunk]
  rw [show msmChunk concreteOps (toProjPt generator) (pNeg (toProjPt ⟨9410140894439863935332762565785171069688954753118397683297156406757263156480, 42897121562489438146646031041430560066848200730688375538592044941290600261670⟩)) (pAdd (toProjPt generator) (pNeg (toProjPt ⟨9410140894439863935332762565785171069688954753118397683297156406757263156480, 42897121562489438146646031041430560066848200730688375538592044941290600261670⟩))) (toBitsLE 134964870455455481639990048174690883238) (toBitsLE 102740912309281064976772028295090993371) 31 32 ⟨46361860616114098970652755835504219075066405529200425231089346731799971756084, 14168194038783108058681141058523075529713877228630345859079053081664809237998, 52187463492440308027294311986624282406514412156596619298432958669936698334666, 25770823630990772289252949546466241250409669334657503583257732451005307544964⟩ =
    some ⟨8417357199010231265820473499189221976381010045465091889734366217807500469252, 25529784079653850276726319867723429501411144912637871388939342039181968825751, 25873479549554078015526824902803930568339945191289344578829138585239341386078, 18775208564178532585546579007547762915375066618082488069897798893236638602821⟩ from by decide]
  show msmLoop concreteOps (toProjPt generator) (pNeg (toProjPt ⟨9410140894439863935332762565785171069688954753118397683297156406757263156480, 42897121562489438146646031041430560066848200730688375538592044941290600261670⟩)) (pAdd (toProjPt generator) (pNeg (toProjPt ⟨9410140894439863935332762565785171069688954753118397683297156406757263156480, 42897121562489438146646031041430560066848200730688375538592044941290600261670⟩))) (toBitsLE 134964870455455481639990048174690883238) (toBitsLE 102740912309281064976772028295090993371) 31 ⟨8417357199010231265820473499189221976381010045465091889734366217807500469252, 25529784079653850276726319867723429501411144912637871388939342039181968825751, 25873479549554078015526824902803930568339945191289344578829138585239341386078, 18775208564178532585546579007547762915375066618082488069897798893236638602821⟩ = some ⟨43787669331577521080163635143128025851952686563146543562402926704421995424003, 5063387970719823134181849420195191921782676952852589761836731127480282379235, 2300296884961537292198231551130290560653873329173976419267900062228692874787, 19501132586482485336492313325094084739605747549524923368610533786287816129010⟩
  rw [show (31 : Nat) = 0 + 31 from rfl, msmLoop_eq_chunk]
  rw [show msmChunk concreteOps (toProjPt generator) (pNeg (toProjPt ⟨9410140894439863935332762565785171069688954753118397683297156406757263156480, 42897121562489438146646031041430560066848200730688375538592044941290600261670⟩)) (pAdd (toProjPt generator) (pNeg (toProjPt ⟨9410140894439863935332762565785171069688954753118397683297156406757263156480, 42897121562489438146646031041430560066848200730688375538592044941290600261670⟩))) (toBitsLE 134964870455455481639990048174690883238) (toBitsLE 102740912309281064976772028295090993371) 0 31 ⟨8417357199010231265820473499189221976381010045465091889734366217807500469252, 25529784079653850276726319867723429501411144912637871388939342039181968825751, 25873479549554078015526824902803930568339945191289344578829138585239341386078, 18775208564178532585546579007547762915375066618082488069897798893236638602821⟩ =
    some ⟨43787669331577521080163635143128025851952686563146543562402926704421995424003, 5063387970719823134181849420195191921782676952852589761836731127480282379235, 2300296884961537292198231551130290560653873329173976419267900062228692874787, 19501132586482485336492313325094084739605747549524923368610533786287816129010⟩ from by decide]
  rfl

set_option maxRecDepth 4000 in
/-- Claim C9: at the generator with scalar `r - 1`, `glv_mul` returns
the negation of the generator; and for any point operations, any
evaluator and any point, `glv_mul` at scalar `0` returns the identity
element (the effective loop length being `0`). -/
theorem glv_mul_edge_cases :
    (glv_mul concreteOps endomorphism generator (r - 1)).map
        (fun res => projEq res (pNeg (toProjPt generator))) = some true ∧
    ∀ (A Pt : Type) (ops : CurveOps A Pt) (endo : A → A) (P : A),
      glv_mul ops endo P 0 = some ops.zero := by
  constructor
  · rw [glv_mul_generator_eval]
    decide
  · intro A Pt ops endo P
    show multi_scalar_mul ops P (scalar_decomposition 0).1 (endo P)
      (scalar_decomposition 0).2 = some ops.zero
    rw [show scalar_decomposition 0 = (0, 0) from by decide]
    show msmLoop ops (ops.toProj P) (ops.toProj (endo P))
      (ops.add (ops.toProj P) (ops.toProj (endo P))) (toBitsLE 0) (toBitsLE 0)
      (max (get_bits (toBitsLE 0)) (get_bits (toBitsLE 0))) ops.zero = some ops.zero
    rw [show get_bits (toBitsLE 0) = 0 from by decide]
    rfl

set_option maxRecDepth 4000 in
/-- Chunked evaluation of the reference multiplication of the order-2 point by r - 1. -/
theorem ref_order2_eval :
    scalarMulRef concreteOps (r - 1) (toProjPt ⟨0, q - 1⟩) = ⟨0, 52435875175126190479447740508185965837690552500527637822603658699938581184512, 0, 52435875175126190479447740508185965837690552500527637822603658699938581184512⟩ := by
  show refLoop concreteOps (r - 1) (toProjPt ⟨0, q - 1⟩) 256 pZero = ⟨0, 52435875175126190479447740508185965837690552500527637822603658699938581184512, 0, 52435875175126190479447740508185965837690552500527637822603658699938581184512⟩
  rw [show (256 : Nat) = 192 + 64 from rfl, refLoop_eq_chunk]
  rw [show refChunk concreteOps (r - 1) (toProjPt ⟨0, q - 1⟩) 192 64 pZero =
    ⟨0, 52435875175126190479447740508185965837690552500527637822603658699938581184512, 0, 52435875175126190479447740508185965837690552500527637822603658699938581184512⟩ from by decide]
  rw [show (192 : Nat) = 128 + 64 from rfl, refLoop_eq_chunk]
  rw [show refChunk concreteOps (r - 1) (toProjPt ⟨0, q - 1⟩) 128 64 ⟨0, 52435875175126190479447740508185965837690552500527637822603658699938581184512, 0, 52435875175126190479447740508185965837690552500527637822603658699938581184512⟩ =
    ⟨0, 52435875175126190479447740508185965837690552500527637822603658699938581184512, 0, 52435875175126190479447740508185965837690552500527637822603658699938581184512⟩ from by decide]
  rw [show (128 : Nat) = 64 + 64 from rfl, refLoop_eq_chunk]
  rw [show refChunk concreteOps (r - 1) (toProjPt ⟨0, q - 1⟩) 64 64 ⟨0, 52435875175126190479447740508185965837690552500527637822603658699938581184512, 0, 52435875175126190479447740508185965837690552500527637822603658699938581184512⟩ =
    ⟨0, 52435875175126190479447740508185965837690552500527637822603658699938581184512, 0, 1⟩ from by decide]
  rw [show (64 : Nat) = 0 + 64 from rfl, refLoop_eq_chunk]
  rw [show refChunk concreteOps (r - 1) (toProjPt ⟨0, q - 1⟩) 0 64 ⟨0, 52435875175126190479447740508185965837690552500527637822603658699938581184512, 0, 1⟩ =
    ⟨0, 52435875175126190479447740508185965837690552500527637822603658699938581184512, 0, 52435875175126190479447740508185965837690552500527637822603658699938581184512⟩ from by decide]
  rfl

set_option maxRecDepth 4000 in
/-- Chunked evaluation of the reference multiplication of the affine identity by 0. -/
theorem ref_zero_eval :
    scalarMulRef concreteOps 0 (toProjPt ⟨0, 1⟩) = ⟨0, 52435875175126190479447740508185965837690552500527637822603658699938581184512, 0, 52435875175126190479447740508185965837690552500527637822603658699938581184512⟩ := by
  show refLoop concreteOps 0 (toProjPt ⟨0, 1⟩) 256 pZero = ⟨0, 52435875175126190479447740508185965837690552500527637822603658699938581184512, 0, 52435875175126190479447740508185965837690552500527637822603658699938581184512⟩
  rw [show (256 : Nat) = 192 + 64 from rfl, refLoop_eq_chunk]
  rw [show refChunk concreteOps 0 (toProjPt ⟨0, 1⟩) 192 64 pZero =
    ⟨0, 52435875175126190479447740508185965837690552500527637822603658699938581184512, 0, 52435875175126190479447740508185965837690552500527637822603658699938581184512⟩ from by decide]
  rw [show (192 : Nat) = 128 + 64 from rfl, refLoop_eq_chunk]
  rw [show refChunk concreteOps 0 (toProjPt ⟨0, 1⟩) 128 64 ⟨0, 52435875175126190479447740508185965837690552500527637822603658699938581184512, 0, 52435875175126190479447740508185965837690552500527637822603658699938581184512⟩ =
    ⟨0, 52435875175126190479447740508185965837690552500527637822603658699938581184512, 0, 52435875175126190479447740508185965837690552500527637822603658699938581184512⟩ from by decide]
  rw [show (128 : Nat) = 64 + 64 from rfl, refLoop_eq_chunk]
  rw [show refChunk concreteOps 0 (toProjPt ⟨0, 1⟩) 64 64 ⟨0, 52435875175126190479447740508185965837690552500527637822603658699938581184512, 0, 52435875175126190479447740508185965837690552500527637822603658699938581184512⟩ =
    ⟨0, 52435875175126190479447740508185965837690552500527637822603658699938581184512, 0, 52435875175126190479447740508185965837690552500527637822603658699938581184512⟩ from by decide]
  rw [show (64 : Nat) = 0 + 64 from rfl, refLoop_eq_chunk]
  rw [show refChunk concreteOps 0 (toProjPt ⟨0, 1⟩) 0 64 ⟨0, 52435875175126190479447740508185965837690552500527637822603658699938581184512, 0, 52435875175126190479447740508185965837690552500527637822603658699938581184512⟩ =
    ⟨0, 52435875175126190479447740508185965837690552500527637822603658699938581184512, 0, 52435875175126190479447740508185965837690552500527637822603658699938581184512⟩ from by decide]
  rfl

set_option maxRecDepth 4000 in
/-- Evaluation of the multiplier at the order-2 point `(0, -1)` with
scalars `r - 1` and `0`: after sign normalisation the loop has length 1
and adds the negated point once. -/
theorem msm_order2_eval :
    multi_scalar_mul concreteOps ⟨0, q - 1⟩ (r - 1) ⟨0, 1⟩ 0 = some ⟨0, 52435875175126190479447740508185965837690552500527637822603658699938581184512, 0, 1⟩ := by
  show msmLoop concreteOps (pNeg (toProjPt ⟨0, q - 1⟩)) (toProjPt ⟨0, 1⟩)
    (pAdd (pNeg (toProjPt ⟨0, q - 1⟩)) (toProjPt ⟨0, 1⟩)) (toBitsLE 1) (toBitsLE 0)
    1 pZero = some ⟨0, 52435875175126190479447740508185965837690552500527637822603658699938581184512, 0, 1⟩
  decide

set_option maxRecDepth 4000 in
/-- Counterexample to C3 as stated: at the on-curve order-2 point
`P = (0, -1)` (which is outside the prime-order subgroup) with `k1 = r - 1`
and `k2 = 0`, the multiplier does not return `k1 • P + k2 • Q`: the sign
normalisation rewrites `(r - 1) • P` as `1 • (-P)`, which differs from the
reference value (the identity, since `P` has order 2 and `r - 1` is even). -/
theorem multi_scalar_mul_cex :
    (multi_scalar_mul concreteOps ⟨0, q - 1⟩ (r - 1) ⟨0, 1⟩ 0).map
      (fun res => projEq res
        (pAdd (scalarMulRef concreteOps (r - 1) (toProjPt ⟨0, q - 1⟩))
          (scalarMulRef concreteOps 0 (toProjPt ⟨0, 1⟩)))) = some false := by
  rw [ref_order2_eval, ref_zero_eval, msm_order2_eval]
  decide

end Bandersnatch
